import Mathlib

/-!
Shallow embedding of `src/prefect_server/api/flows.py` (flow submission,
settings updates, archiving, schedule deactivation and the schedule
materializer), together with theorems checking the specification's claims.

Conventions of the embedding:
* timestamps are natural numbers (the code's pendulum datetimes are totally
  ordered and compared with `<=`; `in_tz("UTC")` normalization is identity
  on absolute instants);
* the persistent store is an explicit `Store` record threaded through each
  operation; the store's id generator is the counter `nextId`, and a freshly
  inserted row receives id `toString nextId`;
* Python exceptions become an explicit `PyError` value returned next to the
  unchanged-or-updated store;
* a serialized schedule (`SerSched`) carries its clock list (read by the
  pydantic `ScheduleSchema` during validation) and the outcome of
  `schedule_schema.load` (`parsed`, `none` when deserialization raises),
  with the recurrence evaluator's event stream inside the parsed object.
-/

/-- Python exceptions raised by the embedded code paths. -/
inductive PyError where
  | valueError (msg : String) : PyError
  | attributeError (msg : String) : PyError
  | keyError (msg : String) : PyError
deriving DecidableEq

/-- Occurrence event produced by the recurrence evaluator: `start_time` and
`parameter_defaults` of the clock that emitted it. -/
structure Event where
  start_time : Nat
  parameter_defaults : List (String × String)
deriving DecidableEq

/-- Deserialized schedule object: `next n` returns the first `n` events of
its (lazily unbounded, here truncated) forward event stream. -/
structure SchedObj where
  events : List Event
deriving DecidableEq

/-- Clock of a serialized schedule; `parameter_defaults` is the clock's
default-parameter dict (pydantic `ClockSchema`, line 31-32 of the source). -/
structure ClockSchema where
  parameter_defaults : List (String × String)
deriving DecidableEq

/-- Serialized schedule as stored/submitted: the clock list seen by the
pydantic validator, and the result of `schedule_schema.load` (`none` models
the deserializer raising). -/
structure SerSched where
  clocks : List ClockSchema
  parsed : Option SchedObj
deriving DecidableEq

/-- Pydantic `TaskSchema` (source lines 39-60) after validation: abbreviated
dict references are already reduced to scalars. -/
structure TaskSchema where
  id : String
  name : Option String
  slug : String
  type : Option String
  auto_generated : Bool
  tags : List String
  max_retries : Nat
  retry_delay : Option Nat
  cache_key : Option String
  trigger : Option String
  mapped : Bool
  is_reference_task : Bool
  is_root_task : Bool
  is_terminal_task : Bool
deriving DecidableEq

/-- Pydantic `EdgeSchema` (source lines 63-81) after validation. -/
structure EdgeSchema where
  upstream_task : String
  downstream_task : String
  mapped : Bool
  key : Option String
deriving DecidableEq

/-- Pydantic `ParameterSchema` (source lines 84-88). -/
structure ParameterSchema where
  name : Option String
  slug : String
  required : Bool
  default : Option String
deriving DecidableEq

/-- Pydantic `FlowSchema` (source lines 91-109) after validation.
`environment` defaults to `None` when the submission lacks it. -/
structure FlowSchema where
  name : Option String
  tasks : List TaskSchema
  edges : List EdgeSchema
  parameters : List ParameterSchema
  environment : Option (List (String × String))
  storage : Option (List (String × String))
  schedule : Option SerSched
  reference_tasks : List String
deriving DecidableEq

/-- Stored Task row (fields written by `create_flow`, source lines 270-289). -/
structure TaskRow where
  id : String
  tenant_id : String
  name : Option String
  slug : String
  type : Option String
  max_retries : Nat
  tags : List String
  retry_delay : Option Nat
  trigger : Option String
  mapped : Bool
  auto_generated : Bool
  cache_key : Option String
  is_reference_task : Bool
  is_root_task : Bool
  is_terminal_task : Bool
deriving DecidableEq

/-- Stored Edge row (fields written by `create_flow`, source lines 290-299). -/
structure EdgeRow where
  tenant_id : String
  upstream_task_id : String
  downstream_task_id : String
  key : Option String
  mapped : Bool
deriving DecidableEq

/-- Stored Flow row (fields written by `create_flow`, source lines 254-300). -/
structure FlowRow where
  id : String
  tenant_id : String
  project_id : String
  name : Option String
  serialized_flow : FlowSchema
  environment : Option (List (String × String))
  core_version : Option String
  storage : Option (List (String × String))
  parameters : List ParameterSchema
  version_group_id : String
  version : Nat
  archived : Bool
  flow_group_id : String
  description : Option String
  schedule : Option SerSched
  is_schedule_active : Bool
  tasks : List TaskRow
  edges : List EdgeRow
deriving DecidableEq

/-- Stored FlowGroup row; `settings` is the key/value settings map (values
are the boolean flags written by this module). -/
structure FlowGroupRow where
  id : String
  tenant_id : String
  name : String
  settings : List (String × Bool)
  schedule : Option SerSched
deriving DecidableEq

/-- Stored FlowRun row (fields used by this module). -/
structure FlowRunRow where
  id : String
  flow_id : String
  scheduled_start_time : Nat
  parameters : List (String × String)
  state : String
  auto_scheduled : Bool
  idempotency_key : String
deriving DecidableEq

/-- Stored Project row (only `tenant_id` is read, source line 193). -/
structure ProjectRow where
  id : String
  tenant_id : String
deriving DecidableEq

/-- The persistent store: all coordination state of the module. `nextId` is
the store's id generator. -/
structure Store where
  projects : List ProjectRow
  flowGroups : List FlowGroupRow
  flows : List FlowRow
  flowRuns : List FlowRunRow
  nextId : Nat
deriving DecidableEq

/-- Python dict assignment `m[k] = v`: replace the value at an existing key
in place, otherwise append the binding. -/
def dictInsert : List (String × Bool) → String → Bool → List (String × Bool)
  | [], k, v => [(k, v)]
  | (a, b) :: m, k, v =>
      if a == k then (a, v) :: m else (a, b) :: dictInsert m k v

/-- Maximum of a list, `none` on the empty list: the store's `max`
aggregate over a selected column. -/
def maxStart : List Nat → Option Nat
  | [] => none
  | x :: xs =>
      match maxStart xs with
      | none => some x
      | some m => some (max x m)

/-- Idempotency key of an auto-scheduled run: the f-string
`"auto-scheduled:" + start_time` (source line 691). -/
def idemKey (t : Nat) : String :=
  "auto-scheduled:" ++ toString t

/-- Modelled from the spec: `api.runs.create_flow_run` is not under `src/`
(only its caller is). Per spec sections 4.6 and 5 it creates a FlowRun in
state `Scheduled` with the given scheduled start time, parameters and
idempotency key, initially not yet marked `auto_scheduled`; a duplicate
insert for the same flow and idempotency key is rejected/ignored by the
store, returning the already-existing run instead of creating a second. -/
def create_flow_run (st : Store) (flow_id : String) (scheduled_start_time : Nat)
    (parameters : List (String × String)) (idempotency_key : String) :
    String × Store :=
  match st.flowRuns.find? (fun r => r.flow_id == flow_id && r.idempotency_key == idempotency_key) with
  | some r => (r.id, st)
  | none =>
      let rid := toString st.nextId
      (rid, { st with
          flowRuns := st.flowRuns ++ [{
            id := rid, flow_id := flow_id,
            scheduled_start_time := scheduled_start_time,
            parameters := parameters, state := "Scheduled",
            auto_scheduled := false, idempotency_key := idempotency_key }],
          nextId := st.nextId + 1 })

/-- Scheduling loop of `schedule_flow_runs` (source lines 681-698): for each
event, skip it when `start_time <= last_scheduled_run`, otherwise create an
idempotent flow run and collect its id. -/
def scheduleLoop (flow_id : String) (last_scheduled_run : Nat) :
    List Event → Store → List String × Store
  | [], st => ([], st)
  | e :: rest, st =>
      if e.start_time ≤ last_scheduled_run then
        scheduleLoop flow_id last_scheduled_run rest st
      else
        let c := create_flow_run st flow_id e.start_time e.parameter_defaults (idemKey e.start_time)
        let r := scheduleLoop flow_id last_scheduled_run rest c.2
        (c.1 :: r.1, r.2)

/-- Batch update closing a materialization pass (source lines 700-702): set
`auto_scheduled = true` on every run whose id is in `run_ids`. -/
def markAuto (st : Store) (run_ids : List String) : Store :=
  { st with
    flowRuns := st.flowRuns.map (fun r =>
      if r.id ∈ run_ids then { r with auto_scheduled := true } else r) }

/-- FlowGroup owning a flow row. -/
def flowGroupOf (groups : List FlowGroupRow) (f : FlowRow) : Option FlowGroupRow :=
  groups.find? (fun g => g.id == f.flow_group_id)

/-- Schedule of the flow's group, when both exist. -/
def groupSchedule (groups : List FlowGroupRow) (f : FlowRow) : Option SerSched :=
  (flowGroupOf groups f).bind (fun g => g.schedule)

/-- Precondition gate of `schedule_flow_runs` (source lines 629-652): the
requested flow, with a schedule on the flow or its group, schedule active,
not archived. -/
def schedulable (groups : List FlowGroupRow) (flow_id : String) (f : FlowRow) : Bool :=
  f.id == flow_id
    && (f.schedule.isSome || (groupSchedule groups f).isSome)
    && f.is_schedule_active
    && !f.archived

/-- Gate query of `schedule_flow_runs`: first flow row passing the gate. -/
def schedulableFlow (st : Store) (flow_id : String) : Option FlowRow :=
  st.flows.find? (schedulable st.flowGroups flow_id)

/-- Effective schedule (source lines 658-663): the flow group's schedule if
present, else the flow's own. -/
def effSchedule (groups : List FlowGroupRow) (f : FlowRow) : Option SerSched :=
  match groupSchedule groups f with
  | some s => some s
  | none => f.schedule

/-- Scheduled start times of the flow's runs having `auto_scheduled = true`:
the column aggregated by the watermark query (source lines 646-649). -/
def autoStarts (st : Store) (flow_id : String) : List Nat :=
  (st.flowRuns.filter (fun r => r.flow_id == flow_id && r.auto_scheduled)).map
    (fun r => r.scheduled_start_time)

/-- Watermark of `schedule_flow_runs` (source lines 673-678): the maximum
`scheduled_start_time` over the flow's auto-scheduled runs, or `now` when
there is none. -/
def lastScheduledRun (st : Store) (flow_id : String) (now : Nat) : Nat :=
  (maxStart (autoStarts st flow_id)).getD now

/-- Embedding of `schedule_flow_runs` (source lines 605-704). `max_runs`
defaults to 10; a flow failing the gate, or whose effective schedule fails
to deserialize, yields no runs and an unchanged store (the failure is
logged and swallowed). `flow_id is None` is not representable here. -/
def schedule_flow_runs (st : Store) (flow_id : String) (max_runs : Option Nat)
    (now : Nat) : List String × Store :=
  let mr := max_runs.getD 10
  match schedulableFlow st flow_id with
  | none => ([], st)
  | some f =>
      match (effSchedule st.flowGroups f).bind (fun s => s.parsed) with
      | none => ([], st)
      | some sched =>
          let w := lastScheduledRun st flow_id now
          let r := scheduleLoop flow_id w (sched.events.take mr) st
          (r.1, markAuto r.2 r.1)

/-- Embedding of `archive_flow` (source lines 331-363): mark the flow
archived, then delete every FlowRun of the flow in state `Scheduled`
(no `auto_scheduled` restriction). -/
def archive_flow (st : Store) (flow_id : String) : (Except PyError Bool) × Store :=
  if flow_id == "" then
    (.error (.valueError "Must provide flow ID."), st)
  else if !(st.flows.any (fun f => f.id == flow_id)) then
    (.ok false, st)
  else
    (.ok true, { st with
      flows := st.flows.map (fun f => if f.id == flow_id then { f with archived := true } else f),
      flowRuns := st.flowRuns.filter (fun r => !(r.flow_id == flow_id && r.state == "Scheduled")) })

/-- Embedding of `set_schedule_inactive` (source lines 574-602): deactivate
the schedule, then delete the flow's FlowRuns that are in state `Scheduled`
and have `auto_scheduled = true`. -/
def set_schedule_inactive (st : Store) (flow_id : String) : (Except PyError Bool) × Store :=
  if !(st.flows.any (fun f => f.id == flow_id)) then
    (.ok false, st)
  else
    (.ok true, { st with
      flows := st.flows.map (fun f => if f.id == flow_id then { f with is_schedule_active := false } else f),
      flowRuns := st.flowRuns.filter (fun r =>
        !(r.flow_id == flow_id && r.state == "Scheduled" && r.auto_scheduled)) })

/-- Embedding of `_update_flow_setting` (source lines 112-151): resolve the
flow to its FlowGroup, merge the single key into the existing settings map,
persist the full resulting map, and return the updated group. -/
def _update_flow_setting (st : Store) (flow_id : String) (key : String) (value : Bool) :
    (Except PyError FlowGroupRow) × Store :=
  match st.flows.find? (fun f => f.id == flow_id) with
  | none => (.error (.valueError "Invalid flow ID"), st)
  | some f =>
      match st.flowGroups.find? (fun g => g.id == f.flow_group_id) with
      | none => (.error (.attributeError "NoneType has no attribute settings"), st)
      | some g =>
          let newSettings := dictInsert g.settings key value
          (.ok { g with settings := newSettings },
           { st with flowGroups := st.flowGroups.map (fun gr =>
               if gr.id == g.id then { gr with settings := newSettings } else gr) })

/-- Embedding of `enable_lazarus_for_flow` (source lines 470-487). -/
def enable_lazarus_for_flow (st : Store) (flow_id : String) : (Except PyError Bool) × Store :=
  let u := _update_flow_setting st flow_id "lazarus_enabled" true
  match u.1 with
  | .error e => (.error e, u.2)
  | .ok _ => (.ok true, u.2)

/-- Embedding of `disable_lazarus_for_flow` (source lines 490-507). -/
def disable_lazarus_for_flow (st : Store) (flow_id : String) : (Except PyError Bool) × Store :=
  let u := _update_flow_setting st flow_id "lazarus_enabled" false
  match u.1 with
  | .error e => (.error e, u.2)
  | .ok _ => (.ok true, u.2)

/-- Core-version cutoff test of `create_flow` (source lines 182-190):
`core_version and parse(core_version) < parse(config.core_version_cutoff)`.
The semantic-version comparison against the configured cutoff lives in the
external `packaging` library and `config`; it is the parameter `below`.
An absent or empty (falsy) `__version__` bypasses the check. -/
def versionBad (below : String → Bool) (env : List (String × String)) : Bool :=
  match env.lookup "__version__" with
  | some v => !(v == "") && below v
  | none => false

/-- Required-parameter check of `create_flow` (source lines 198-207): with a
schedule and at least one required parameter, every clock's
`parameter_defaults` must cover every required parameter's name. -/
def clockCovers (c : ClockSchema) (required : List ParameterSchema) : Bool :=
  required.all (fun p =>
    match p.name with
    | some nm => (c.parameter_defaults.map (fun q => q.1)).contains nm
    | none => false)

/-- Whether the submission passes the schedule/required-parameter gate of
`create_flow` (source lines 201-207). -/
def scheduleParamsOk (sf : FlowSchema) : Bool :=
  match sf.schedule with
  | none => true
  | some sched =>
      let required := sf.parameters.filter (fun p => p.required)
      if required.isEmpty then true
      else sched.clocks.all (fun c => clockCovers c required)

/-- Task-detail derivation of `create_flow` (source lines 210-221): recompute
`mapped`, `is_reference_task`, `is_root_task` and `is_terminal_task` for
every task from the edge list and the declared reference-task set. -/
def deriveTasks (sf : FlowSchema) : List TaskSchema :=
  let tasks_with_upstreams := sf.edges.map (fun e => e.downstream_task)
  let tasks_with_downstreams := sf.edges.map (fun e => e.upstream_task)
  let reference_tasks :=
    if sf.reference_tasks.isEmpty then
      (sf.tasks.filter (fun t => !tasks_with_downstreams.contains t.slug)).map (fun t => t.slug)
    else sf.reference_tasks
  sf.tasks.map (fun t =>
    { t with
      mapped := sf.edges.any (fun e => e.mapped && e.downstream_task == t.slug),
      is_reference_task := reference_tasks.contains t.slug,
      is_root_task := !tasks_with_upstreams.contains t.slug,
      is_terminal_task := !tasks_with_downstreams.contains t.slug })

/-- Python dict comprehension `{t.slug: t for t in flow.tasks}`: on duplicate
slugs the later task wins. -/
def taskLookup (tasks : List TaskSchema) (slug : String) : Option TaskSchema :=
  tasks.reverse.find? (fun t => t.slug == slug)

/-- Edge resolution of `create_flow` (source lines 290-299): each edge's
endpoint slugs are resolved to task ids through `task_lookup`; a slug absent
from the task set is a Python `KeyError` (`none` here). -/
def resolveEdges (sf : FlowSchema) (tenant_id : String) : Option (List EdgeRow) :=
  sf.edges.mapM (fun e => do
    let u ← taskLookup sf.tasks e.upstream_task
    let d ← taskLookup sf.tasks e.downstream_task
    pure { tenant_id := tenant_id, upstream_task_id := u.id,
           downstream_task_id := d.id, key := e.key, mapped := e.mapped })

/-- Default settings of a freshly created FlowGroup (source lines 242-246). -/
def defaultSettings : List (String × Bool) :=
  [("heartbeat_enabled", true), ("lazarus_enabled", true), ("version_locking_enabled", false)]

/-- FlowGroup resolution of `create_flow` (source lines 229-249): reuse the
group keyed by `(tenant_id, name = version_group_id)`, creating it with the
default settings when absent. -/
def ensureFlowGroup (st : Store) (tenant_id : String) (vgid : String) : String × Store :=
  match st.flowGroups.find? (fun g => g.tenant_id == tenant_id && g.name == vgid) with
  | some g => (g.id, st)
  | none =>
      let gid := toString st.nextId
      (gid, { st with
        flowGroups := st.flowGroups ++ [{
          id := gid, tenant_id := tenant_id, name := vgid,
          settings := defaultSettings, schedule := none }],
        nextId := st.nextId + 1 })

/-- Version computation of `create_flow` (source line 251): the store's max
aggregate of `version` over flows sharing `(tenant_id, version_group_id)`,
`or 0` when there is none; the new flow gets this value plus one. -/
def maxVersion (flows : List FlowRow) (tenant_id : String) (vgid : String) : Nat :=
  ((flows.filter (fun f => f.version_group_id == vgid && f.tenant_id == tenant_id)).map
    (fun f => f.version)).foldl Nat.max 0

/-- Line 224 of the source: `version_group_id or str(uuid.uuid4())` (a falsy
submitted id is replaced by a fresh uuid, modelled by `fresh`). -/
def effectiveVgid (vg : Option String) (fresh : String) : String :=
  match vg with
  | some v => if v == "" then fresh else v
  | none => fresh

/-- Task row stored for a derived task (source lines 270-289). -/
def taskRowOf (tenant_id : String) (t : TaskSchema) : TaskRow :=
  { id := t.id, tenant_id := tenant_id, name := t.name, slug := t.slug,
    type := t.type, max_retries := t.max_retries, tags := t.tags,
    retry_delay := t.retry_delay, trigger := t.trigger, mapped := t.mapped,
    auto_generated := t.auto_generated, cache_key := t.cache_key,
    is_reference_task := t.is_reference_task, is_root_task := t.is_root_task,
    is_terminal_task := t.is_terminal_task }

/-- Flow row built by `create_flow` (source lines 254-300). -/
def mkFlowRow (sf : FlowSchema) (env : List (String × String)) (tenant_id : String)
    (project_id : String) (vgid : String) (version : Nat) (flow_group_id : String)
    (description : Option String) (set_schedule_active : Bool) (flow_id : String)
    (edgeRows : List EdgeRow) : FlowRow :=
  { id := flow_id, tenant_id := tenant_id, project_id := project_id,
    name := sf.name, serialized_flow := sf, environment := some env,
    core_version := env.lookup "__version__", storage := sf.storage,
    parameters := sf.parameters, version_group_id := vgid,
    version := version + 1, archived := false, flow_group_id := flow_group_id,
    description := description, schedule := sf.schedule,
    is_schedule_active := set_schedule_active,
    tasks := (deriveTasks sf).map (taskRowOf tenant_id),
    edges := edgeRows }

/-- Write phase of `create_flow` (source lines 224-306): ensure the flow
group, compute the next version, resolve edges (a bad edge slug is a
`KeyError` raised while building the insert), insert the flow with its
tasks and edges, then run one materialization pass when the schedule is
set active. -/
def create_flow_write (st : Store) (sf : FlowSchema) (env : List (String × String))
    (tenant_id : String) (project_id : String) (vgid : String)
    (set_schedule_active : Bool) (description : Option String) (now : Nat) :
    (Except PyError String) × Store :=
  let g := ensureFlowGroup st tenant_id vgid
  let version := maxVersion g.2.flows tenant_id vgid
  match resolveEdges sf tenant_id with
  | none => (.error (.keyError "task slug"), g.2)
  | some edgeRows =>
      let flow_id := toString g.2.nextId
      let row := mkFlowRow sf env tenant_id project_id vgid version g.1
        description set_schedule_active flow_id edgeRows
      let st3 := { g.2 with flows := g.2.flows ++ [row], nextId := g.2.nextId + 1 }
      let st4 := if set_schedule_active then (schedule_flow_runs st3 flow_id none now).2 else st3
      (.ok flow_id, st4)

/-- Embedding of `create_flow` (source lines 154-306). `below` is the
external semantic-version comparison against the configured cutoff. The
returned store is unchanged on every error path that precedes a write. -/
def create_flow (below : String → Bool) (st : Store) (serialized_flow : FlowSchema)
    (project_id : String) (version_group_id : Option String)
    (set_schedule_active : Bool) (description : Option String)
    (freshVgid : String) (now : Nat) : (Except PyError String) × Store :=
  match serialized_flow.environment with
  | none => (.error (.attributeError "NoneType has no attribute get"), st)
  | some env =>
      if versionBad below env then
        (.error (.valueError "Prefect Server requires flows built at or above the core version cutoff"), st)
      else
        match st.projects.find? (fun p => p.id == project_id) with
        | none => (.error (.valueError "Invalid project."), st)
        | some project =>
            if !scheduleParamsOk serialized_flow then
              (.error (.valueError "Can not schedule a flow that has required parameters."), st)
            else
              create_flow_write st serialized_flow env project.tenant_id project_id
                (effectiveVgid version_group_id freshVgid) set_schedule_active description now
-- ===================================================================
-- Helper lemmas
-- ===================================================================

lemma maxStart_eq_none_iff {l : List Nat} : maxStart l = none ↔ l = [] := by
  cases l with
  | nil => simp [maxStart]
  | cons x xs => rw [maxStart]; cases maxStart xs <;> simp

lemma maxStart_mem {l : List Nat} {m : Nat} (h : maxStart l = some m) : m ∈ l := by
  induction l generalizing m with
  | nil => simp [maxStart] at h
  | cons x xs ih =>
    rw [maxStart] at h
    cases hx : maxStart xs with
    | none => rw [hx] at h; simp at h; simp [h]
    | some m' =>
      rw [hx] at h
      simp at h
      rcases max_choice x m' with h1 | h1
      · have hm : m = x := by omega
        rw [hm]; exact List.mem_cons_self x xs
      · have hm : m = m' := by omega
        rw [hm]; exact List.mem_cons_of_mem x (ih hx)

lemma maxStart_le {l : List Nat} {a m : Nat} (ha : a ∈ l) (h : maxStart l = some m) : a ≤ m := by
  induction l generalizing m with
  | nil => simp at ha
  | cons x xs ih =>
    rw [maxStart] at h
    cases hx : maxStart xs with
    | none =>
      rw [hx] at h; simp at h
      have hxs : xs = [] := maxStart_eq_none_iff.mp hx
      subst hxs; simp at ha; omega
    | some m' =>
      rw [hx] at h; simp at h
      rcases List.mem_cons.mp ha with rfl | ha'
      · omega
      · have := ih ha' hx; omega

lemma maxStart_isSome_of_mem {l : List Nat} {a : Nat} (ha : a ∈ l) : ∃ m, maxStart l = some m := by
  cases hl : maxStart l with
  | none => rw [maxStart_eq_none_iff] at hl; subst hl; simp at ha
  | some m => exact ⟨m, rfl⟩

lemma dictInsert_lookup_ne {m : List (String × Bool)} {k k' : String} {v : Bool}
    (h : k' ≠ k) : (dictInsert m k v).lookup k' = m.lookup k' := by
  have hkk : (k' == k) = false := beq_eq_false_iff_ne.mpr h
  induction m with
  | nil => simp [dictInsert, List.lookup_cons, hkk]
  | cons p m' ih =>
    obtain ⟨a, b⟩ := p
    rw [dictInsert]
    by_cases hak : a = k
    · subst hak
      simp [List.lookup_cons, hkk]
    · have hakf : (a == k) = false := beq_eq_false_iff_ne.mpr hak
      simp only [hakf, Bool.false_eq_true, if_false, List.lookup_cons]
      cases hk'a : k' == a <;> simp [ih]

lemma dictInsert_lookup_self {m : List (String × Bool)} {k : String} {v : Bool} :
    (dictInsert m k v).lookup k = some v := by
  induction m with
  | nil => simp [dictInsert, List.lookup_cons]
  | cons p m' ih =>
    obtain ⟨a, b⟩ := p
    rw [dictInsert]
    by_cases hak : a = k
    · subst hak
      simp [List.lookup_cons]
    · have hakf : (a == k) = false := beq_eq_false_iff_ne.mpr hak
      have hka : (k == a) = false := beq_eq_false_iff_ne.mpr (Ne.symm hak)
      simp only [hakf, Bool.false_eq_true, if_false, List.lookup_cons, hka]
      exact ih

lemma mem_autoStarts {st : Store} {fid : String} {s : Nat} :
    s ∈ autoStarts st fid ↔
      ∃ r, r ∈ st.flowRuns ∧ r.flow_id = fid ∧ r.auto_scheduled = true ∧
        r.scheduled_start_time = s := by
  simp only [autoStarts, List.mem_map, List.mem_filter, Bool.and_eq_true, beq_iff_eq]
  constructor
  · rintro ⟨r, ⟨hr, hf, ha⟩, hs⟩; exact ⟨r, hr, hf, ha, hs⟩
  · rintro ⟨r, hr, hf, ha, hs⟩; exact ⟨r, ⟨hr, hf, ha⟩, hs⟩
lemma create_flow_run_store (st : Store) (fid : String) (t : Nat)
    (p : List (String × String)) (k : String) :
    (create_flow_run st fid t p k).2.flows = st.flows ∧
    (create_flow_run st fid t p k).2.flowGroups = st.flowGroups ∧
    (create_flow_run st fid t p k).2.projects = st.projects ∧
    st.nextId ≤ (create_flow_run st fid t p k).2.nextId ∧
    (create_flow_run st fid t p k).2.nextId ≤ st.nextId + 1 := by
  unfold create_flow_run
  cases hf : st.flowRuns.find? (fun r => r.flow_id == fid && r.idempotency_key == k) <;> simp

lemma create_flow_run_old {st : Store} {fid : String} {t : Nat}
    {p : List (String × String)} {k : String} {r : FlowRunRow} (hr : r ∈ st.flowRuns) :
    r ∈ (create_flow_run st fid t p k).2.flowRuns := by
  unfold create_flow_run
  cases hf : st.flowRuns.find? (fun r => r.flow_id == fid && r.idempotency_key == k) <;>
    simp [hr, List.mem_append]

lemma create_flow_run_new {st : Store} {fid : String} {t : Nat}
    {p : List (String × String)} {k : String} {r : FlowRunRow}
    (hr : r ∈ (create_flow_run st fid t p k).2.flowRuns) :
    r ∈ st.flowRuns ∨
      (r.flow_id = fid ∧ r.auto_scheduled = false ∧ r.state = "Scheduled" ∧
       r.scheduled_start_time = t ∧ r.idempotency_key = k ∧ r.id = toString st.nextId ∧
       (create_flow_run st fid t p k).2.nextId = st.nextId + 1) := by
  unfold create_flow_run at hr
  cases hf : st.flowRuns.find? (fun r => r.flow_id == fid && r.idempotency_key == k) with
  | some r0 => rw [hf] at hr; exact Or.inl hr
  | none =>
    rw [hf] at hr
    simp only [List.mem_append, List.mem_singleton] at hr
    rcases hr with hr | hr
    · exact Or.inl hr
    · subst hr
      refine Or.inr ⟨rfl, rfl, rfl, rfl, rfl, rfl, ?_⟩
      unfold create_flow_run
      rw [hf]

lemma create_flow_run_id (st : Store) (fid : String) (t : Nat)
    (p : List (String × String)) (k : String) :
    ∃ r, r ∈ (create_flow_run st fid t p k).2.flowRuns ∧
      r.id = (create_flow_run st fid t p k).1 ∧ r.flow_id = fid ∧
      r.idempotency_key = k ∧ (r ∈ st.flowRuns ∨ r.scheduled_start_time = t) := by
  unfold create_flow_run
  cases hf : st.flowRuns.find? (fun r => r.flow_id == fid && r.idempotency_key == k) with
  | some r0 =>
    have hp := List.find?_some hf
    simp only [Bool.and_eq_true, beq_iff_eq] at hp
    exact ⟨r0, List.mem_of_find?_eq_some hf, rfl, hp.1, hp.2,
      Or.inl (List.mem_of_find?_eq_some hf)⟩
  | none =>
    refine ⟨{ id := toString st.nextId, flow_id := fid, scheduled_start_time := t,
              parameters := p, state := "Scheduled", auto_scheduled := false,
              idempotency_key := k }, ?_, rfl, rfl, rfl, Or.inr rfl⟩
    simp [List.mem_append]

lemma scheduleLoop_store (fid : String) (w : Nat) (ev : List Event) (st : Store) :
    (scheduleLoop fid w ev st).2.flows = st.flows ∧
    (scheduleLoop fid w ev st).2.flowGroups = st.flowGroups ∧
    (scheduleLoop fid w ev st).2.projects = st.projects ∧
    st.nextId ≤ (scheduleLoop fid w ev st).2.nextId ∧
    (scheduleLoop fid w ev st).2.nextId ≤ st.nextId + ev.length := by
  induction ev generalizing st with
  | nil => simp [scheduleLoop]
  | cons e rest ih =>
    by_cases h : e.start_time ≤ w
    · simp only [scheduleLoop, h, if_true]
      obtain ⟨h1, h2, h3, h4, h5⟩ := ih st
      exact ⟨h1, h2, h3, h4, by simpa using Nat.le_trans h5 (by simp)⟩
    · simp only [scheduleLoop, h, if_false]
      obtain ⟨c1, c2, c3, c4, c5⟩ :=
        create_flow_run_store st fid e.start_time e.parameter_defaults (idemKey e.start_time)
      obtain ⟨h1, h2, h3, h4, h5⟩ :=
        ih (create_flow_run st fid e.start_time e.parameter_defaults (idemKey e.start_time)).2
      refine ⟨h1.trans c1, h2.trans c2, h3.trans c3, Nat.le_trans c4 h4, ?_⟩
      simp only [List.length_cons]
      omega

lemma scheduleLoop_old {fid : String} {w : Nat} {ev : List Event} {st : Store}
    {r : FlowRunRow} (hr : r ∈ st.flowRuns) :
    r ∈ (scheduleLoop fid w ev st).2.flowRuns := by
  induction ev generalizing st with
  | nil => simpa [scheduleLoop] using hr
  | cons e rest ih =>
    by_cases h : e.start_time ≤ w
    · simp only [scheduleLoop, h, if_true]
      exact ih hr
    · simp only [scheduleLoop, h, if_false]
      exact ih (create_flow_run_old hr)

lemma scheduleLoop_new {fid : String} {w : Nat} {ev : List Event} {st : Store}
    {r : FlowRunRow} (hr : r ∈ (scheduleLoop fid w ev st).2.flowRuns) :
    r ∈ st.flowRuns ∨
      (r.flow_id = fid ∧ r.auto_scheduled = false ∧ r.state = "Scheduled" ∧
       (∃ e ∈ ev, w < e.start_time ∧ r.scheduled_start_time = e.start_time ∧
         r.idempotency_key = idemKey e.start_time) ∧
       (∃ j, st.nextId ≤ j ∧ j < (scheduleLoop fid w ev st).2.nextId ∧ r.id = toString j)) := by
  induction ev generalizing st with
  | nil => exact Or.inl (by simpa [scheduleLoop] using hr)
  | cons e rest ih =>
    by_cases h : e.start_time ≤ w
    · rw [scheduleLoop] at hr ⊢
      rw [if_pos h] at hr ⊢
      rcases ih hr with h1 | ⟨h1, h2, h3, ⟨e', he', hw, hs, hk⟩, j, hj1, hj2, hj3⟩
      · exact Or.inl h1
      · exact Or.inr ⟨h1, h2, h3, ⟨e', List.mem_cons_of_mem e he', hw, hs, hk⟩, j, hj1, hj2, hj3⟩
    · rw [scheduleLoop] at hr ⊢
      rw [if_neg h] at hr ⊢
      simp only at hr ⊢
      rcases ih hr with h1 | ⟨h1, h2, h3, ⟨e', he', hw, hs, hk⟩, j, hj1, hj2, hj3⟩
      · rcases create_flow_run_new h1 with h2 | ⟨g1, g2, g3, g4, g5, g6, g7⟩
        · exact Or.inl h2
        · refine Or.inr ⟨g1, g2, g3, ⟨e, List.mem_cons_self e rest, Nat.lt_of_not_le h, g4, g5⟩,
            st.nextId, Nat.le_refl _, ?_, g6⟩
          have l4 := (scheduleLoop_store fid w rest (create_flow_run st fid e.start_time e.parameter_defaults (idemKey e.start_time)).2).2.2.2.1
          omega
      · refine Or.inr ⟨h1, h2, h3, ⟨e', List.mem_cons_of_mem e he', hw, hs, hk⟩, j, ?_, hj2, hj3⟩
        have c4 := (create_flow_run_store st fid e.start_time e.parameter_defaults (idemKey e.start_time)).2.2.2.1
        omega
lemma scheduleLoop_skip_all {fid : String} {w : Nat} {ev : List Event} {st : Store}
    (h : ∀ e ∈ ev, e.start_time ≤ w) : scheduleLoop fid w ev st = ([], st) := by
  induction ev generalizing st with
  | nil => rfl
  | cons e rest ih =>
    rw [scheduleLoop, if_pos (h e (List.mem_cons_self e rest))]
    exact ih (fun e' he' => h e' (List.mem_cons_of_mem e he'))

/-- Canonical-key invariant of a store with respect to a window of events:
any existing run of the flow whose idempotency key is the auto-scheduled
key of one of the events was scheduled at exactly that event's start time.
This is the invariant the materializer itself establishes (the key is
derived deterministically from the start time). -/
def KeyCanon (EV : List Event) (fid : String) (st : Store) : Prop :=
  ∀ r ∈ st.flowRuns, r.flow_id = fid →
    ∀ e ∈ EV, r.idempotency_key = idemKey e.start_time →
      r.scheduled_start_time = e.start_time

/-- Distinct events of the window have distinct idempotency keys (the key
rendering of a timestamp is injective). -/
def KeysInj (EV : List Event) : Prop :=
  ∀ e ∈ EV, ∀ e' ∈ EV, idemKey e.start_time = idemKey e'.start_time →
    e.start_time = e'.start_time

lemma create_flow_run_canon {EV : List Event} {fid : String} {st : Store}
    {e : Event} (he : e ∈ EV) (hinj : KeysInj EV) (hc : KeyCanon EV fid st) :
    KeyCanon EV fid (create_flow_run st fid e.start_time e.parameter_defaults (idemKey e.start_time)).2 := by
  intro r hr hfid e' he' hk
  rcases create_flow_run_new hr with h1 | ⟨_, _, _, h4, h5, _⟩
  · exact hc r h1 hfid e' he' hk
  · rw [h4]
    exact hinj e he e' he' (h5 ▸ hk)

lemma scheduleLoop_canon {EV ev : List Event} {fid : String} {w : Nat} {st : Store}
    (hsub : ∀ e ∈ ev, e ∈ EV) (hinj : KeysInj EV) (hc : KeyCanon EV fid st) :
    KeyCanon EV fid (scheduleLoop fid w ev st).2 := by
  induction ev generalizing st with
  | nil => simpa [scheduleLoop] using hc
  | cons e rest ih =>
    by_cases h : e.start_time ≤ w
    · rw [scheduleLoop, if_pos h]
      exact ih (fun e' he' => hsub e' (List.mem_cons_of_mem e he')) hc
    · rw [scheduleLoop, if_neg h]
      simp only
      exact ih (fun e' he' => hsub e' (List.mem_cons_of_mem e he'))
        (create_flow_run_canon (hsub e (List.mem_cons_self e rest)) hinj hc)

lemma scheduleLoop_ids {EV ev : List Event} {fid : String} {w : Nat} {st : Store}
    (hsub : ∀ e ∈ ev, e ∈ EV) (hinj : KeysInj EV) (hc : KeyCanon EV fid st) :
    ∀ i ∈ (scheduleLoop fid w ev st).1,
      ∃ r ∈ (scheduleLoop fid w ev st).2.flowRuns, r.id = i ∧ r.flow_id = fid ∧
        ∃ e ∈ ev, w < e.start_time ∧ r.scheduled_start_time = e.start_time := by
  induction ev generalizing st with
  | nil => intro i hi; simp [scheduleLoop] at hi
  | cons e rest ih =>
    intro i hi
    by_cases h : e.start_time ≤ w
    · rw [scheduleLoop, if_pos h] at hi ⊢
      obtain ⟨r, hr, hrid, hrf, e', he', hw', hs'⟩ :=
        ih (fun x hx => hsub x (List.mem_cons_of_mem e hx)) hc i hi
      exact ⟨r, hr, hrid, hrf, e', List.mem_cons_of_mem e he', hw', hs'⟩
    · rw [scheduleLoop, if_neg h] at hi ⊢
      simp only [List.mem_cons] at hi
      simp only
      rcases hi with rfl | hi
      · -- the id returned by create_flow_run for the head event
        obtain ⟨r, hr, hrid, hrf, hrk, hold⟩ :=
          create_flow_run_id st fid e.start_time e.parameter_defaults (idemKey e.start_time)
        have hst : r.scheduled_start_time = e.start_time := by
          rcases hold with hobs | hnew
          · exact hc r hobs hrf e (hsub e (List.mem_cons_self e rest)) hrk
          · exact hnew
        exact ⟨r, scheduleLoop_old hr, hrid, hrf, e, List.mem_cons_self e rest,
          Nat.lt_of_not_le h, hst⟩
      · obtain ⟨r, hr, hrid, hrf, e', he', hw', hs'⟩ :=
          ih (fun x hx => hsub x (List.mem_cons_of_mem e hx))
            (create_flow_run_canon (hsub e (List.mem_cons_self e rest)) hinj hc) i hi
        exact ⟨r, hr, hrid, hrf, e', List.mem_cons_of_mem e he', hw', hs'⟩

lemma scheduleLoop_covers {EV ev : List Event} {fid : String} {w : Nat} {st : Store}
    (hsub : ∀ e ∈ ev, e ∈ EV) (hinj : KeysInj EV) (hc : KeyCanon EV fid st) :
    ∀ e ∈ ev, w < e.start_time →
      ∃ i ∈ (scheduleLoop fid w ev st).1,
        ∃ r ∈ (scheduleLoop fid w ev st).2.flowRuns, r.id = i ∧ r.flow_id = fid ∧
          r.scheduled_start_time = e.start_time := by
  induction ev generalizing st with
  | nil => intro e he; simp at he
  | cons e0 rest ih =>
    intro e he hw
    by_cases h : e0.start_time ≤ w
    · rw [scheduleLoop, if_pos h]
      rcases List.mem_cons.mp he with rfl | he'
      · omega
      · exact ih (fun x hx => hsub x (List.mem_cons_of_mem e0 hx)) hc e he' hw
    · rw [scheduleLoop, if_neg h]
      simp only
      rcases List.mem_cons.mp he with rfl | he'
      · obtain ⟨r, hr, hrid, hrf, hrk, hold⟩ :=
          create_flow_run_id st fid e.start_time e.parameter_defaults (idemKey e.start_time)
        have hst : r.scheduled_start_time = e.start_time := by
          rcases hold with hobs | hnew
          · exact hc r hobs hrf e (hsub e (List.mem_cons_self e rest)) hrk
          · exact hnew
        exact ⟨_, List.mem_cons_self _ _, r, scheduleLoop_old hr, hrid, hrf, hst⟩
      · obtain ⟨i, hi, r, hr, hrid, hrf, hs'⟩ :=
          ih (fun x hx => hsub x (List.mem_cons_of_mem e0 hx))
            (create_flow_run_canon (hsub e0 (List.mem_cons_self e0 rest)) hinj hc) e he' hw
        exact ⟨i, List.mem_cons_of_mem _ hi, r, hr, hrid, hrf, hs'⟩
lemma markAuto_flows (st : Store) (ids : List String) : (markAuto st ids).flows = st.flows := rfl

lemma markAuto_flowGroups (st : Store) (ids : List String) :
    (markAuto st ids).flowGroups = st.flowGroups := rfl

lemma markAuto_projects (st : Store) (ids : List String) :
    (markAuto st ids).projects = st.projects := rfl

lemma markAuto_nil (st : Store) : markAuto st [] = st := by
  cases st
  simp [markAuto]

lemma schedule_flow_runs_eq_of_gate {st : Store} {fid : String} {f : FlowRow}
    {sched : SchedObj} (n : Option Nat) (now : Nat)
    (hf : schedulableFlow st fid = some f)
    (hs : (effSchedule st.flowGroups f).bind (fun s => s.parsed) = some sched) :
    schedule_flow_runs st fid n now =
      ((scheduleLoop fid (lastScheduledRun st fid now) (sched.events.take (n.getD 10)) st).1,
       markAuto (scheduleLoop fid (lastScheduledRun st fid now) (sched.events.take (n.getD 10)) st).2
         (scheduleLoop fid (lastScheduledRun st fid now) (sched.events.take (n.getD 10)) st).1) := by
  unfold schedule_flow_runs
  simp only [hf, hs]

lemma schedule_flow_runs_gate_none {st : Store} {fid : String} (n : Option Nat) (now : Nat)
    (hf : schedulableFlow st fid = none) :
    schedule_flow_runs st fid n now = ([], st) := by
  unfold schedule_flow_runs
  simp only [hf]

lemma schedule_flow_runs_sched_none {st : Store} {fid : String} {f : FlowRow}
    (n : Option Nat) (now : Nat)
    (hf : schedulableFlow st fid = some f)
    (hs : (effSchedule st.flowGroups f).bind (fun s => s.parsed) = none) :
    schedule_flow_runs st fid n now = ([], st) := by
  unfold schedule_flow_runs
  simp only [hf, hs]

lemma schedule_flow_runs_store (st : Store) (fid : String) (n : Option Nat) (now : Nat) :
    (schedule_flow_runs st fid n now).2.flows = st.flows ∧
    (schedule_flow_runs st fid n now).2.flowGroups = st.flowGroups ∧
    (schedule_flow_runs st fid n now).2.projects = st.projects := by
  cases hf : schedulableFlow st fid with
  | none => rw [schedule_flow_runs_gate_none n now hf]; exact ⟨rfl, rfl, rfl⟩
  | some f =>
    cases hs : (effSchedule st.flowGroups f).bind (fun s => s.parsed) with
    | none => rw [schedule_flow_runs_sched_none n now hf hs]; exact ⟨rfl, rfl, rfl⟩
    | some sched =>
      rw [schedule_flow_runs_eq_of_gate n now hf hs]
      obtain ⟨h1, h2, h3, _, _⟩ :=
        scheduleLoop_store fid (lastScheduledRun st fid now) (sched.events.take (n.getD 10)) st
      exact ⟨h1, h2, h3⟩

lemma schedulableFlow_congr {st st' : Store} (fid : String)
    (h1 : st'.flows = st.flows) (h2 : st'.flowGroups = st.flowGroups) :
    schedulableFlow st' fid = schedulableFlow st fid := by
  unfold schedulableFlow
  rw [h1, h2]
lemma loopMark_auto_old {fid : String} {w : Nat} {ev : List Event} {st : Store} :
    ∀ s ∈ autoStarts st fid,
      s ∈ autoStarts (markAuto (scheduleLoop fid w ev st).2 (scheduleLoop fid w ev st).1) fid := by
  intro s hs
  rw [mem_autoStarts] at hs ⊢
  obtain ⟨r, hr, hf, ha, hst⟩ := hs
  have hr' : r ∈ (scheduleLoop fid w ev st).2.flowRuns := scheduleLoop_old hr
  simp only [markAuto]
  refine ⟨_, List.mem_map_of_mem
    (fun x => if x.id ∈ (scheduleLoop fid w ev st).1 then { x with auto_scheduled := true } else x) hr',
    ?_, ?_, ?_⟩ <;>
    by_cases hcond : r.id ∈ (scheduleLoop fid w ev st).1 <;>
    simp [hcond, hf, ha, hst]

lemma loopMark_covers {fid : String} {w : Nat} {ev : List Event} {st : Store}
    (hinj : KeysInj ev) (hc : KeyCanon ev fid st) :
    ∀ e ∈ ev, w < e.start_time →
      e.start_time ∈ autoStarts (markAuto (scheduleLoop fid w ev st).2 (scheduleLoop fid w ev st).1) fid := by
  intro e he hw
  obtain ⟨i, hi, r, hr, hrid, hrf, hrs⟩ :=
    scheduleLoop_covers (fun x hx => hx) hinj hc e he hw
  rw [mem_autoStarts]
  have hcond : r.id ∈ (scheduleLoop fid w ev st).1 := hrid ▸ hi
  simp only [markAuto]
  refine ⟨_, List.mem_map_of_mem
    (fun x => if x.id ∈ (scheduleLoop fid w ev st).1 then { x with auto_scheduled := true } else x) hr,
    ?_, ?_, ?_⟩ <;> simp only [if_pos hcond] <;> simp [hrf, hrs]

lemma loopMark_auto_bound {fid : String} {w : Nat} {ev : List Event} {st : Store}
    (hinj : KeysInj ev) (hc : KeyCanon ev fid st)
    (hfresh : ∀ r ∈ st.flowRuns, ∀ j, st.nextId ≤ j → j < st.nextId + ev.length →
      r.id ≠ toString j)
    (huniq : ∀ r ∈ st.flowRuns, ∀ r' ∈ st.flowRuns, r.id = r'.id → r = r') :
    ∀ s ∈ autoStarts (markAuto (scheduleLoop fid w ev st).2 (scheduleLoop fid w ev st).1) fid,
      s ∈ autoStarts st fid ∨ w < s := by
  intro s hs
  rw [mem_autoStarts] at hs
  obtain ⟨r', hr', hf', ha', hs'⟩ := hs
  simp only [markAuto, List.mem_map] at hr'
  obtain ⟨rr, hrr, himg⟩ := hr'
  have hfields : r'.flow_id = rr.flow_id ∧ r'.scheduled_start_time = rr.scheduled_start_time := by
    by_cases hcond : rr.id ∈ (scheduleLoop fid w ev st).1
    · rw [if_pos hcond] at himg
      rw [← himg]
      exact ⟨rfl, rfl⟩
    · rw [if_neg hcond] at himg
      rw [← himg]
      exact ⟨rfl, rfl⟩
  rcases scheduleLoop_new hrr with hold | ⟨g1, g2, g3, ⟨e, he, hw, hst, hk⟩, hj⟩
  · by_cases hauto : rr.auto_scheduled = true
    · left
      rw [mem_autoStarts]
      exact ⟨rr, hold, hfields.1 ▸ hf', hauto, hfields.2 ▸ hs'⟩
    · -- a pre-existing non-auto run was flipped: its id is in the pass's run
      -- id list, hence a dedup hit on one of this pass's events
      have hcond : rr.id ∈ (scheduleLoop fid w ev st).1 := by
        by_contra hcond
        rw [if_neg hcond] at himg
        rw [← himg] at ha'
        exact hauto ha'
      obtain ⟨r1, hr1, hr1id, hr1f, e, he, hwe, hr1s⟩ :=
        scheduleLoop_ids (fun x hx => hx) hinj hc rr.id hcond
      rcases scheduleLoop_new hr1 with h1old | ⟨_, _, _, _, j, hj1, hj2, hj3⟩
      · have heq : rr = r1 := huniq rr hold r1 h1old hr1id.symm
        right
        rw [← hs', hfields.2, heq, hr1s]
        exact hwe
      · exfalso
        have hb := (scheduleLoop_store fid w ev st).2.2.2.2
        exact hfresh rr hold j hj1 (by omega) (hr1id ▸ hj3)
  · right
    rw [← hs', hfields.2, hst]
    exact hw
lemma lastScheduledRun_mono {st st1 : Store} {fid : String} {now : Nat}
    (hA : ∀ s ∈ autoStarts st fid, s ∈ autoStarts st1 fid)
    (hC : ∀ s ∈ autoStarts st1 fid,
      s ∈ autoStarts st fid ∨ lastScheduledRun st fid now < s) :
    lastScheduledRun st fid now ≤ lastScheduledRun st1 fid now := by
  unfold lastScheduledRun at hC ⊢
  cases h0 : maxStart (autoStarts st fid) with
  | none =>
    have hemp : autoStarts st fid = [] := maxStart_eq_none_iff.mp h0
    cases h1 : maxStart (autoStarts st1 fid) with
    | none => simp
    | some m =>
      have hm := maxStart_mem h1
      rcases hC m hm with hmem | hlt
      · rw [hemp] at hmem; simp at hmem
      · rw [h0] at hlt
        simp only [Option.getD_none, Option.getD_some] at hlt ⊢
        omega
  | some m0 =>
    have hm0 : m0 ∈ autoStarts st1 fid := hA m0 (maxStart_mem h0)
    obtain ⟨m1, h1⟩ := maxStart_isSome_of_mem hm0
    rw [h1]
    simpa using maxStart_le hm0 h1

lemma schedule_flow_runs_new_runs (st : Store) (fid : String) (n : Option Nat) (now : Nat) :
    ∀ r ∈ (schedule_flow_runs st fid n now).2.flowRuns,
      (∃ r0 ∈ st.flowRuns, r.id = r0.id) ∨
        lastScheduledRun st fid now < r.scheduled_start_time := by
  intro r hr
  cases hf : schedulableFlow st fid with
  | none =>
    rw [schedule_flow_runs_gate_none n now hf] at hr
    exact Or.inl ⟨r, hr, rfl⟩
  | some f =>
    cases hs : (effSchedule st.flowGroups f).bind (fun s => s.parsed) with
    | none =>
      rw [schedule_flow_runs_sched_none n now hf hs] at hr
      exact Or.inl ⟨r, hr, rfl⟩
    | some sched =>
      rw [schedule_flow_runs_eq_of_gate n now hf hs] at hr
      simp only [markAuto, List.mem_map] at hr
      obtain ⟨rr, hrr, himg⟩ := hr
      have hfields : r.id = rr.id ∧ r.scheduled_start_time = rr.scheduled_start_time := by
        by_cases hcond : rr.id ∈ (scheduleLoop fid (lastScheduledRun st fid now)
            (sched.events.take (n.getD 10)) st).1
        · rw [if_pos hcond] at himg
          rw [← himg]
          exact ⟨rfl, rfl⟩
        · rw [if_neg hcond] at himg
          rw [← himg]
          exact ⟨rfl, rfl⟩
      rcases scheduleLoop_new hrr with hold | ⟨_, _, _, ⟨e, _, hw, hst, _⟩, _⟩
      · exact Or.inl ⟨rr, hold, hfields.1⟩
      · right
        rw [hfields.2, hst]
        exact hw
-- ===================================================================
-- Claim theorems: scheduling (C1, C2, C8)
-- ===================================================================

/-- C1: calling `schedule_flow_runs` twice in succession with an unchanged
schedule and no elapsed time creates zero new flow runs on the second call:
the first call's runs (marked `auto_scheduled = true` by the closing batch
update) raise the watermark to the latest created start time, and every
occurrence the second call receives with `start_time <=` that watermark is
skipped. Hypotheses: the flow passes the gate with a deserializable
schedule; existing runs carry canonical idempotency keys, distinct events
have distinct keys, stored run ids are unique and do not collide with the
ids the id generator is about to hand out. -/
theorem claim_C1_second_pass_empty (st : Store) (fid : String) (now : Nat)
    (f : FlowRow) (sched : SchedObj)
    (hf : schedulableFlow st fid = some f)
    (hs : (effSchedule st.flowGroups f).bind (fun s => s.parsed) = some sched)
    (hinj : KeysInj (sched.events.take 10))
    (hcanon : KeyCanon (sched.events.take 10) fid st)
    (hfresh : ∀ r ∈ st.flowRuns, ∀ j, st.nextId ≤ j →
      j < st.nextId + (sched.events.take 10).length → r.id ≠ toString j)
    (huniq : ∀ r ∈ st.flowRuns, ∀ r' ∈ st.flowRuns, r.id = r'.id → r = r') :
    (schedule_flow_runs (schedule_flow_runs st fid none now).2 fid none now).1 = [] ∧
    (schedule_flow_runs (schedule_flow_runs st fid none now).2 fid none now).2.flowRuns =
      (schedule_flow_runs st fid none now).2.flowRuns := by
  have hstore := schedule_flow_runs_store st fid none now
  have heq1 := schedule_flow_runs_eq_of_gate (none : Option Nat) now hf hs
  simp only [Option.getD_none] at heq1
  have hst1 : (schedule_flow_runs st fid none now).2 =
      markAuto (scheduleLoop fid (lastScheduledRun st fid now) (sched.events.take 10) st).2
        (scheduleLoop fid (lastScheduledRun st fid now) (sched.events.take 10) st).1 := by
    rw [heq1]
  -- second gate is identical: the pass does not touch flows or flow groups
  have hf2 : schedulableFlow (schedule_flow_runs st fid none now).2 fid = some f := by
    rw [schedulableFlow_congr fid hstore.1 hstore.2.1, hf]
  have hs2 : (effSchedule (schedule_flow_runs st fid none now).2.flowGroups f).bind
      (fun s => s.parsed) = some sched := by
    rw [hstore.2.1, hs]
  have heq2 := schedule_flow_runs_eq_of_gate (none : Option Nat) now hf2 hs2
  simp only [Option.getD_none] at heq2
  -- the second watermark dominates every event of the window
  have hA : ∀ s ∈ autoStarts st fid,
      s ∈ autoStarts (schedule_flow_runs st fid none now).2 fid := by
    rw [hst1]; exact loopMark_auto_old
  have hC : ∀ s ∈ autoStarts (schedule_flow_runs st fid none now).2 fid,
      s ∈ autoStarts st fid ∨ lastScheduledRun st fid now < s := by
    rw [hst1]; exact loopMark_auto_bound hinj hcanon hfresh huniq
  have hmono := lastScheduledRun_mono hA hC
  have hskip : ∀ e ∈ sched.events.take 10,
      e.start_time ≤ lastScheduledRun (schedule_flow_runs st fid none now).2 fid now := by
    intro e he
    by_cases hew : e.start_time ≤ lastScheduledRun st fid now
    · exact le_trans hew hmono
    · have hmem : e.start_time ∈ autoStarts (schedule_flow_runs st fid none now).2 fid := by
        rw [hst1]
        exact loopMark_covers hinj hcanon e he (Nat.lt_of_not_le hew)
      obtain ⟨m, hm⟩ := maxStart_isSome_of_mem hmem
      have hle := maxStart_le hmem hm
      unfold lastScheduledRun
      rw [hm]
      simpa using hle
  have hloop : scheduleLoop fid
      (lastScheduledRun (schedule_flow_runs st fid none now).2 fid now)
      (sched.events.take 10) (schedule_flow_runs st fid none now).2 =
      ([], (schedule_flow_runs st fid none now).2) := scheduleLoop_skip_all hskip
  rw [heq2, hloop]
  exact ⟨rfl, by rw [markAuto_nil]⟩

/-- Sample flow schema used by concrete witnesses. -/
def sampleFlowSchema : FlowSchema :=
  { name := some "flow", tasks := [], edges := [], parameters := [],
    environment := some [], storage := none, schedule := none,
    reference_tasks := [] }

/-- Sample schedule whose stream has two future events. -/
def sampleSchedC1 : SchedObj :=
  { events := [{ start_time := 100, parameter_defaults := [] },
               { start_time := 200, parameter_defaults := [] }] }

/-- Sample flow row with an active, deserializable schedule. -/
def sampleFlowRowC1 : FlowRow :=
  { id := "f", tenant_id := "t", project_id := "p", name := some "flow",
    serialized_flow := sampleFlowSchema, environment := some [],
    core_version := none, storage := none, parameters := [],
    version_group_id := "vg", version := 1, archived := false,
    flow_group_id := "g", description := none,
    schedule := some { clocks := [], parsed := some sampleSchedC1 },
    is_schedule_active := true, tasks := [], edges := [] }

/-- Sample store holding only the schedulable flow. -/
def sampleStoreC1 : Store :=
  { projects := [], flowGroups := [], flows := [sampleFlowRowC1],
    flowRuns := [], nextId := 0 }

/-- Witness for C1 at a concrete store: the second pass yields no runs. -/
theorem claim_C1_witness :
    (schedule_flow_runs (schedule_flow_runs sampleStoreC1 "f" none 50).2 "f" none 50).1 = [] ∧
    (schedule_flow_runs (schedule_flow_runs sampleStoreC1 "f" none 50).2 "f" none 50).2.flowRuns =
      (schedule_flow_runs sampleStoreC1 "f" none 50).2.flowRuns :=
  claim_C1_second_pass_empty sampleStoreC1 "f" 50 sampleFlowRowC1 sampleSchedC1
    (by decide) (by decide) (by unfold KeysInj; decide)
    (by unfold KeyCanon; simp [sampleStoreC1])
    (by simp [sampleStoreC1]) (by simp [sampleStoreC1])
/-- C2: the watermark `last_scheduled_run` equals the maximum
`scheduled_start_time` over the flow's `auto_scheduled = true` runs and
equals `now` when no such run exists; every occurrence at or below the
watermark is skipped, so any run row of the resulting store is either a
pre-existing row (same id) or was scheduled strictly after the watermark —
in particular a freshly activated schedule (no auto-scheduled runs yet)
never creates runs for occurrences at or before `now`. -/
theorem claim_C2_watermark_skips_past (st : Store) (fid : String) (n : Option Nat) (now : Nat) :
    (autoStarts st fid = [] → lastScheduledRun st fid now = now) ∧
    (autoStarts st fid ≠ [] →
      lastScheduledRun st fid now ∈ autoStarts st fid ∧
      ∀ s ∈ autoStarts st fid, s ≤ lastScheduledRun st fid now) ∧
    (∀ r ∈ (schedule_flow_runs st fid n now).2.flowRuns,
      (∃ r0 ∈ st.flowRuns, r.id = r0.id) ∨
        lastScheduledRun st fid now < r.scheduled_start_time) ∧
    (autoStarts st fid = [] →
      ∀ r ∈ (schedule_flow_runs st fid n now).2.flowRuns,
        (∃ r0 ∈ st.flowRuns, r.id = r0.id) ∨ now < r.scheduled_start_time) := by
  have hempty : autoStarts st fid = [] → lastScheduledRun st fid now = now := by
    intro h
    unfold lastScheduledRun
    rw [h]
    simp [maxStart]
  refine ⟨hempty, ?_, schedule_flow_runs_new_runs st fid n now, ?_⟩
  · intro h
    cases hm : maxStart (autoStarts st fid) with
    | none => exact absurd (maxStart_eq_none_iff.mp hm) h
    | some m =>
      have hval : lastScheduledRun st fid now = m := by
        unfold lastScheduledRun
        rw [hm]
        rfl
      exact ⟨hval ▸ maxStart_mem hm, fun s hs => hval ▸ maxStart_le hs hm⟩
  · intro h r hr
    rcases schedule_flow_runs_new_runs st fid n now r hr with hl | hgt
    · exact Or.inl hl
    · exact Or.inr (hempty h ▸ hgt)

/-- Witness for C2 at a concrete store. -/
theorem claim_C2_witness :
    (autoStarts sampleStoreC1 "f" = [] → lastScheduledRun sampleStoreC1 "f" 50 = 50) ∧
    (autoStarts sampleStoreC1 "f" ≠ [] →
      lastScheduledRun sampleStoreC1 "f" 50 ∈ autoStarts sampleStoreC1 "f" ∧
      ∀ s ∈ autoStarts sampleStoreC1 "f", s ≤ lastScheduledRun sampleStoreC1 "f" 50) ∧
    (∀ r ∈ (schedule_flow_runs sampleStoreC1 "f" none 50).2.flowRuns,
      (∃ r0 ∈ sampleStoreC1.flowRuns, r.id = r0.id) ∨
        lastScheduledRun sampleStoreC1 "f" 50 < r.scheduled_start_time) ∧
    (autoStarts sampleStoreC1 "f" = [] →
      ∀ r ∈ (schedule_flow_runs sampleStoreC1 "f" none 50).2.flowRuns,
        (∃ r0 ∈ sampleStoreC1.flowRuns, r.id = r0.id) ∨ 50 < r.scheduled_start_time) :=
  claim_C2_watermark_skips_past sampleStoreC1 "f" none 50

/-- C8: when the effective schedule of a gated flow fails to deserialize,
`schedule_flow_runs` yields an empty run id list and leaves the store
untouched; the embedded function is total (the exception is caught, logged
and swallowed in the source), so one bad schedule cannot abort a batch
sweep over many flows. -/
theorem claim_C8_bad_schedule_swallowed (st : Store) (fid : String) (n : Option Nat)
    (now : Nat) (f : FlowRow)
    (hf : schedulableFlow st fid = some f)
    (hs : (effSchedule st.flowGroups f).bind (fun s => s.parsed) = none) :
    schedule_flow_runs st fid n now = ([], st) :=
  schedule_flow_runs_sched_none n now hf hs

/-- Sample flow row whose schedule fails to deserialize. -/
def sampleFlowRowC8 : FlowRow :=
  { sampleFlowRowC1 with id := "f8", schedule := some { clocks := [], parsed := none } }

/-- Sample store holding only the flow with the bad schedule. -/
def sampleStoreC8 : Store :=
  { projects := [], flowGroups := [], flows := [sampleFlowRowC8],
    flowRuns := [], nextId := 0 }

/-- Witness for C8 at a concrete store. -/
theorem claim_C8_witness :
    schedule_flow_runs sampleStoreC8 "f8" none 7 = ([], sampleStoreC8) :=
  claim_C8_bad_schedule_swallowed sampleStoreC8 "f8" none 7 sampleFlowRowC8
    (by decide) (by decide)
-- ===================================================================
-- Claim theorems: archive / deactivate (C7) and settings merge (C9)
-- ===================================================================

/-- C7: archiving deletes every FlowRun of the flow in state `Scheduled`
regardless of `auto_scheduled`, while deactivating the schedule deletes only
runs that are both `Scheduled` and `auto_scheduled = true`, leaving manually
created `Scheduled` runs and runs in any other (already-started) state
intact. -/
theorem claim_C7_archive_vs_deactivate (st : Store) (fid : String)
    (hne : fid ≠ "") (hex : st.flows.any (fun f => f.id == fid) = true) :
    (archive_flow st fid).1 = .ok true ∧
    (archive_flow st fid).2.flowRuns =
      st.flowRuns.filter (fun r => !(r.flow_id == fid && r.state == "Scheduled")) ∧
    (set_schedule_inactive st fid).1 = .ok true ∧
    (set_schedule_inactive st fid).2.flowRuns =
      st.flowRuns.filter (fun r =>
        !(r.flow_id == fid && r.state == "Scheduled" && r.auto_scheduled)) ∧
    (∀ r ∈ st.flowRuns, r.flow_id = fid → r.state = "Scheduled" →
      r.auto_scheduled = false → r ∈ (set_schedule_inactive st fid).2.flowRuns) ∧
    (∀ r ∈ st.flowRuns, r.state ≠ "Scheduled" →
      r ∈ (set_schedule_inactive st fid).2.flowRuns) := by
  have hne' : (fid == "") = false := beq_eq_false_iff_ne.mpr hne
  have hset : (set_schedule_inactive st fid).2.flowRuns =
      st.flowRuns.filter (fun r =>
        !(r.flow_id == fid && r.state == "Scheduled" && r.auto_scheduled)) := by
    simp [set_schedule_inactive, hex]
  refine ⟨?_, ?_, ?_, hset, ?_, ?_⟩
  · simp [archive_flow, hne', hex]
  · simp [archive_flow, hne', hex]
  · simp [set_schedule_inactive, hex]
  · intro r hr h1 h2 h3
    rw [hset, List.mem_filter]
    exact ⟨hr, by simp [h1, h2, h3]⟩
  · intro r hr h1
    rw [hset, List.mem_filter]
    refine ⟨hr, ?_⟩
    have hst : (r.state == "Scheduled") = false := beq_eq_false_iff_ne.mpr h1
    simp [hst]

/-- Sample store for exercising archive/deactivate: one flow, three runs
(auto-scheduled, manual scheduled, running). -/
def sampleStoreC7 : Store :=
  { projects := [], flowGroups := [],
    flows := [sampleFlowRowC1],
    flowRuns :=
      [{ id := "r1", flow_id := "f", scheduled_start_time := 100, parameters := [],
         state := "Scheduled", auto_scheduled := true, idempotency_key := "auto-scheduled:100" },
       { id := "r2", flow_id := "f", scheduled_start_time := 150, parameters := [],
         state := "Scheduled", auto_scheduled := false, idempotency_key := "manual" },
       { id := "r3", flow_id := "f", scheduled_start_time := 10, parameters := [],
         state := "Running", auto_scheduled := true, idempotency_key := "auto-scheduled:10" }],
    nextId := 4 }

/-- Witness for C7 at a concrete store. -/
theorem claim_C7_witness :
    (archive_flow sampleStoreC7 "f").1 = .ok true ∧
    (archive_flow sampleStoreC7 "f").2.flowRuns =
      sampleStoreC7.flowRuns.filter (fun r => !(r.flow_id == "f" && r.state == "Scheduled")) ∧
    (set_schedule_inactive sampleStoreC7 "f").1 = .ok true ∧
    (set_schedule_inactive sampleStoreC7 "f").2.flowRuns =
      sampleStoreC7.flowRuns.filter (fun r =>
        !(r.flow_id == "f" && r.state == "Scheduled" && r.auto_scheduled)) ∧
    (∀ r ∈ sampleStoreC7.flowRuns, r.flow_id = "f" → r.state = "Scheduled" →
      r.auto_scheduled = false → r ∈ (set_schedule_inactive sampleStoreC7 "f").2.flowRuns) ∧
    (∀ r ∈ sampleStoreC7.flowRuns, r.state ≠ "Scheduled" →
      r ∈ (set_schedule_inactive sampleStoreC7 "f").2.flowRuns) :=
  claim_C7_archive_vs_deactivate sampleStoreC7 "f" (by decide) (by decide)
lemma find?_map_update {groups : List FlowGroupRow} {gid : String} {g : FlowGroupRow}
    (hg : groups.find? (fun x => x.id == gid) = some g)
    (newSettings : List (String × Bool)) :
    (groups.map (fun x => if x.id == g.id then { x with settings := newSettings } else x)).find?
      (fun x => x.id == gid) = some { g with settings := newSettings } := by
  induction groups with
  | nil => simp at hg
  | cons a l ih =>
    by_cases ha : (a.id == gid) = true
    · have hcons : List.find? (fun x : FlowGroupRow => x.id == gid) (a :: l) = some a :=
        List.find?_cons_of_pos _ ha
      rw [hcons] at hg
      have : a = g := by injection hg
      subst this
      rw [List.map_cons]
      have hid : (if a.id == a.id then { a with settings := newSettings } else a) =
          { a with settings := newSettings } := by
        simp
      rw [hid]
      exact List.find?_cons_of_pos _ (by simpa using ha)
    · have hcons : List.find? (fun x : FlowGroupRow => x.id == gid) (a :: l) =
          List.find? (fun x : FlowGroupRow => x.id == gid) l :=
        List.find?_cons_of_neg _ ha
      rw [hcons] at hg
      rw [List.map_cons]
      have hid : (if a.id == g.id then { a with settings := newSettings } else a).id = a.id := by
        by_cases hc : (a.id == g.id) = true <;> simp [hc]
      refine Eq.trans (List.find?_cons_of_neg _ ?_) (ih hg)
      show ¬((if a.id == g.id then { a with settings := newSettings } else a).id == gid) = true
      rw [hid]
      exact ha

lemma update_setting_ok {st : Store} {fid : String} (key : String) (value : Bool)
    {f : FlowRow} {g : FlowGroupRow}
    (hf : st.flows.find? (fun x => x.id == fid) = some f)
    (hg : st.flowGroups.find? (fun x => x.id == f.flow_group_id) = some g) :
    _update_flow_setting st fid key value =
      (.ok { g with settings := dictInsert g.settings key value },
       { st with flowGroups := st.flowGroups.map (fun gr =>
           if gr.id == g.id then { gr with settings := dictInsert g.settings key value }
           else gr) }) := by
  unfold _update_flow_setting
  simp only [hf, hg]

/-- C9: `_update_flow_setting` merges only the given key into the flow
group's settings map (the persisted map is `dictInsert` of the old map, and
every other key's value is unchanged); consequently enabling then disabling
lazarus leaves `heartbeat_enabled` and `version_locking_enabled` at their
prior values while `lazarus_enabled` ends at `false`. -/
theorem claim_C9_settings_merge (st : Store) (fid key : String) (value : Bool)
    (f : FlowRow) (g : FlowGroupRow)
    (hf : st.flows.find? (fun x => x.id == fid) = some f)
    (hg : st.flowGroups.find? (fun x => x.id == f.flow_group_id) = some g) :
    ((_update_flow_setting st fid key value).2.flowGroups.find?
        (fun x => x.id == f.flow_group_id) =
      some { g with settings := dictInsert g.settings key value }) ∧
    (∀ k, k ≠ key → (dictInsert g.settings key value).lookup k = g.settings.lookup k) ∧
    (∃ g2, ((disable_lazarus_for_flow (enable_lazarus_for_flow st fid).2 fid).2.flowGroups.find?
        (fun x => x.id == f.flow_group_id)) = some g2 ∧
      g2.settings.lookup "heartbeat_enabled" = g.settings.lookup "heartbeat_enabled" ∧
      g2.settings.lookup "version_locking_enabled" = g.settings.lookup "version_locking_enabled" ∧
      g2.settings.lookup "lazarus_enabled" = some false) := by
  refine ⟨?_, fun k hk => dictInsert_lookup_ne hk, ?_⟩
  · rw [update_setting_ok key value hf hg]
    exact find?_map_update hg _
  · -- enable pass
    have hen : enable_lazarus_for_flow st fid =
        (.ok true, (_update_flow_setting st fid "lazarus_enabled" true).2) := by
      unfold enable_lazarus_for_flow
      rw [update_setting_ok "lazarus_enabled" true hf hg]
    have hst1 : (enable_lazarus_for_flow st fid).2 =
        { st with flowGroups := st.flowGroups.map (fun gr =>
            if gr.id == g.id then { gr with settings := dictInsert g.settings "lazarus_enabled" true }
            else gr) } := by
      rw [hen, update_setting_ok "lazarus_enabled" true hf hg]
    have hf1 : ((enable_lazarus_for_flow st fid).2).flows.find? (fun x => x.id == fid) = some f := by
      rw [hst1]
      exact hf
    have hg1 : ((enable_lazarus_for_flow st fid).2).flowGroups.find?
        (fun x => x.id == f.flow_group_id) =
        some { g with settings := dictInsert g.settings "lazarus_enabled" true } := by
      rw [hst1]
      exact find?_map_update hg _
    -- disable pass
    have hdis := update_setting_ok "lazarus_enabled" false hf1 hg1
    have hst2 : (disable_lazarus_for_flow (enable_lazarus_for_flow st fid).2 fid).2 =
        (_update_flow_setting (enable_lazarus_for_flow st fid).2 fid "lazarus_enabled" false).2 := by
      unfold disable_lazarus_for_flow
      rw [hdis]
    refine ⟨{ { g with settings := dictInsert g.settings "lazarus_enabled" true } with
        settings := dictInsert (dictInsert g.settings "lazarus_enabled" true)
          "lazarus_enabled" false }, ?_, ?_, ?_, ?_⟩
    · rw [hst2, hdis]
      exact find?_map_update hg1 _
    · rw [dictInsert_lookup_ne (by decide), dictInsert_lookup_ne (by decide)]
    · rw [dictInsert_lookup_ne (by decide), dictInsert_lookup_ne (by decide)]
    · exact dictInsert_lookup_self

/-- Sample store for the settings claims: one flow owned by one group with
the default settings. -/
def sampleStoreC9 : Store :=
  { projects := [],
    flowGroups := [{ id := "g", tenant_id := "t", name := "vg",
                     settings := defaultSettings, schedule := none }],
    flows := [sampleFlowRowC1],
    flowRuns := [], nextId := 0 }

/-- Witness for C9 at a concrete store. -/
theorem claim_C9_witness :
    ((_update_flow_setting sampleStoreC9 "f" "lazarus_enabled" false).2.flowGroups.find?
        (fun x => x.id == sampleFlowRowC1.flow_group_id) =
      some { id := "g", tenant_id := "t", name := "vg",
             settings := dictInsert defaultSettings "lazarus_enabled" false,
             schedule := none }) ∧
    (∀ k, k ≠ "lazarus_enabled" →
      (dictInsert defaultSettings "lazarus_enabled" false).lookup k =
        defaultSettings.lookup k) ∧
    (∃ g2, ((disable_lazarus_for_flow (enable_lazarus_for_flow sampleStoreC9 "f").2 "f").2.flowGroups.find?
        (fun x => x.id == sampleFlowRowC1.flow_group_id)) = some g2 ∧
      g2.settings.lookup "heartbeat_enabled" = defaultSettings.lookup "heartbeat_enabled" ∧
      g2.settings.lookup "version_locking_enabled" = defaultSettings.lookup "version_locking_enabled" ∧
      g2.settings.lookup "lazarus_enabled" = some false) :=
  claim_C9_settings_merge sampleStoreC9 "f" "lazarus_enabled" false sampleFlowRowC1
    { id := "g", tenant_id := "t", name := "vg", settings := defaultSettings, schedule := none }
    (by decide) (by decide)
lemma effectiveVgid_of_ne {g fv : String} (hg : g ≠ "") :
    effectiveVgid (some g) fv = g := by
  unfold effectiveVgid
  simp [beq_eq_false_iff_ne.mpr hg]

lemma ensureFlowGroup_found {st : Store} {tid vgid : String} {g : FlowGroupRow}
    (h : st.flowGroups.find? (fun x => x.tenant_id == tid && x.name == vgid) = some g) :
    ensureFlowGroup st tid vgid = (g.id, st) := by
  unfold ensureFlowGroup
  rw [h]

lemma ensureFlowGroup_absent {st : Store} {tid vgid : String}
    (h : st.flowGroups.find? (fun x => x.tenant_id == tid && x.name == vgid) = none) :
    ensureFlowGroup st tid vgid =
      (toString st.nextId,
       { st with
         flowGroups := st.flowGroups ++ [{
           id := toString st.nextId, tenant_id := tid, name := vgid,
           settings := defaultSettings, schedule := none }],
         nextId := st.nextId + 1 }) := by
  unfold ensureFlowGroup
  rw [h]

lemma ensureFlowGroup_frame (st : Store) (tid vgid : String) :
    (ensureFlowGroup st tid vgid).2.flows = st.flows ∧
    (ensureFlowGroup st tid vgid).2.projects = st.projects ∧
    (ensureFlowGroup st tid vgid).2.flowRuns = st.flowRuns := by
  unfold ensureFlowGroup
  cases h : st.flowGroups.find? (fun x => x.tenant_id == tid && x.name == vgid) <;>
    exact ⟨rfl, rfl, rfl⟩

lemma maxVersion_append {l : List FlowRow} {row : FlowRow} {tid vgid : String}
    (hrow : (row.version_group_id == vgid && row.tenant_id == tid) = true) :
    maxVersion (l ++ [row]) tid vgid = Nat.max (maxVersion l tid vgid) row.version := by
  unfold maxVersion
  rw [List.filter_append, List.map_append, List.foldl_append]
  simp [List.filter, hrow]

lemma create_flow_ok_inv {below : String → Bool} {st : Store} {sf : FlowSchema}
    {pid : String} {vg : Option String} {act : Bool} {desc : Option String}
    {fv : String} {now : Nat} {fid : String} {st' : Store}
    (h : create_flow below st sf pid vg act desc fv now = (.ok fid, st')) :
    ∃ env proj, sf.environment = some env ∧ versionBad below env = false ∧
      st.projects.find? (fun p => p.id == pid) = some proj ∧
      scheduleParamsOk sf = true ∧
      create_flow_write st sf env proj.tenant_id pid (effectiveVgid vg fv) act desc now =
        (.ok fid, st') := by
  unfold create_flow at h
  split at h
  · simp at h
  · rename_i env he
    split at h
    · simp at h
    · rename_i hvb
      split at h
      · simp at h
      · rename_i proj hp
        split at h
        · simp at h
        · rename_i hok
          refine ⟨env, proj, he, by simpa using hvb, hp, by simpa using hok, h⟩

lemma create_flow_write_ok_inv {st : Store} {sf : FlowSchema}
    {env : List (String × String)} {tid pid vgid : String} {act : Bool}
    {desc : Option String} {now : Nat} {fid : String} {st' : Store}
    (h : create_flow_write st sf env tid pid vgid act desc now = (.ok fid, st')) :
    ∃ edgeRows, resolveEdges sf tid = some edgeRows ∧
      fid = toString (ensureFlowGroup st tid vgid).2.nextId ∧
      st' = (if act then
          (schedule_flow_runs
            { (ensureFlowGroup st tid vgid).2 with
              flows := (ensureFlowGroup st tid vgid).2.flows ++
                [mkFlowRow sf env tid pid vgid
                  (maxVersion (ensureFlowGroup st tid vgid).2.flows tid vgid)
                  (ensureFlowGroup st tid vgid).1 desc act
                  (toString (ensureFlowGroup st tid vgid).2.nextId) edgeRows],
              nextId := (ensureFlowGroup st tid vgid).2.nextId + 1 }
            (toString (ensureFlowGroup st tid vgid).2.nextId) none now).2
        else
          { (ensureFlowGroup st tid vgid).2 with
            flows := (ensureFlowGroup st tid vgid).2.flows ++
              [mkFlowRow sf env tid pid vgid
                (maxVersion (ensureFlowGroup st tid vgid).2.flows tid vgid)
                (ensureFlowGroup st tid vgid).1 desc act
                (toString (ensureFlowGroup st tid vgid).2.nextId) edgeRows],
            nextId := (ensureFlowGroup st tid vgid).2.nextId + 1 }) := by
  unfold create_flow_write at h
  split at h
  · simp at h
  · rename_i edgeRows hr
    rw [Prod.ext_iff] at h
    obtain ⟨h1, h2⟩ := h
    simp only at h1 h2
    injection h1 with h1
    exact ⟨edgeRows, hr, h1.symm, h2.symm⟩
lemma create_flow_ok_state {below : String → Bool} {st : Store} {sf : FlowSchema}
    {pid : String} {vg : Option String} {act : Bool} {desc : Option String}
    {fv : String} {now : Nat} {fid : String} {st' : Store}
    (h : create_flow below st sf pid vg act desc fv now = (.ok fid, st')) :
    ∃ env proj edgeRows,
      sf.environment = some env ∧
      st.projects.find? (fun p => p.id == pid) = some proj ∧
      resolveEdges sf proj.tenant_id = some edgeRows ∧
      fid = toString (ensureFlowGroup st proj.tenant_id (effectiveVgid vg fv)).2.nextId ∧
      st'.flows = st.flows ++
        [mkFlowRow sf env proj.tenant_id pid (effectiveVgid vg fv)
          (maxVersion st.flows proj.tenant_id (effectiveVgid vg fv))
          (ensureFlowGroup st proj.tenant_id (effectiveVgid vg fv)).1 desc act fid edgeRows] ∧
      st'.flowGroups = (ensureFlowGroup st proj.tenant_id (effectiveVgid vg fv)).2.flowGroups ∧
      st'.projects = st.projects := by
  obtain ⟨env, proj, he, hvb, hp, hok, hw⟩ := create_flow_ok_inv h
  obtain ⟨edgeRows, hr, hfid, hst⟩ := create_flow_write_ok_inv hw
  obtain ⟨hfl, hpr, _⟩ :=
    ensureFlowGroup_frame st proj.tenant_id (effectiveVgid vg fv)
  have htrip :
      st'.flows = (ensureFlowGroup st proj.tenant_id (effectiveVgid vg fv)).2.flows ++
        [mkFlowRow sf env proj.tenant_id pid (effectiveVgid vg fv)
          (maxVersion (ensureFlowGroup st proj.tenant_id (effectiveVgid vg fv)).2.flows
            proj.tenant_id (effectiveVgid vg fv))
          (ensureFlowGroup st proj.tenant_id (effectiveVgid vg fv)).1 desc act
          (toString (ensureFlowGroup st proj.tenant_id (effectiveVgid vg fv)).2.nextId) edgeRows] ∧
      st'.flowGroups = (ensureFlowGroup st proj.tenant_id (effectiveVgid vg fv)).2.flowGroups ∧
      st'.projects = (ensureFlowGroup st proj.tenant_id (effectiveVgid vg fv)).2.projects := by
    rw [hst]
    by_cases hact : act = true
    · rw [if_pos hact]
      obtain ⟨h1, h2, h3⟩ := schedule_flow_runs_store
        { (ensureFlowGroup st proj.tenant_id (effectiveVgid vg fv)).2 with
          flows := (ensureFlowGroup st proj.tenant_id (effectiveVgid vg fv)).2.flows ++
            [mkFlowRow sf env proj.tenant_id pid (effectiveVgid vg fv)
              (maxVersion (ensureFlowGroup st proj.tenant_id (effectiveVgid vg fv)).2.flows
                proj.tenant_id (effectiveVgid vg fv))
              (ensureFlowGroup st proj.tenant_id (effectiveVgid vg fv)).1 desc act
              (toString (ensureFlowGroup st proj.tenant_id (effectiveVgid vg fv)).2.nextId) edgeRows],
          nextId := (ensureFlowGroup st proj.tenant_id (effectiveVgid vg fv)).2.nextId + 1 }
        (toString (ensureFlowGroup st proj.tenant_id (effectiveVgid vg fv)).2.nextId) none now
      exact ⟨h1, h2, h3⟩
    · rw [if_neg hact]
      exact ⟨rfl, rfl, rfl⟩
  obtain ⟨ht1, ht2, ht3⟩ := htrip
  refine ⟨env, proj, edgeRows, he, hp, hr, hfid, ?_, ?_, ?_⟩
  · rw [ht1, hfl, ← hfid]
  · rw [ht2]
  · rw [ht3, hpr]
lemma bnot_contains_map_iff {α : Type} {l : List α} {f : α → String} {s : String} :
    (!(l.map f).contains s) = true ↔ ∀ e ∈ l, f e ≠ s := by
  simp [List.mem_map]

lemma any_edges_iff {l : List EdgeSchema} {s : String} :
    (l.any (fun e => e.mapped && e.downstream_task == s)) = true ↔
      ∃ e ∈ l, e.mapped = true ∧ e.downstream_task = s := by
  simp [List.any_eq_true, Bool.and_eq_true, beq_iff_eq]

/-- C4: the stored tasks of a created flow have `is_root_task` true iff the
slug never appears as an edge's `downstream_task`, `is_terminal_task` true
iff it never appears as an edge's `upstream_task`, and `mapped` true iff
some edge flagged mapped has the task as its `downstream_task`; with zero
edges every task is both root and terminal. -/
theorem claim_C4_task_flags (below : String → Bool) (st : Store) (sf : FlowSchema)
    (pid : String) (vg : Option String) (act : Bool) (desc : Option String)
    (fv : String) (now : Nat) (fid : String) (st' : Store)
    (h : create_flow below st sf pid vg act desc fv now = (.ok fid, st')) :
    ∃ f ∈ st'.flows, f.id = fid ∧
      (∀ t ∈ f.tasks,
        (t.is_root_task = true ↔ ∀ e ∈ sf.edges, e.downstream_task ≠ t.slug) ∧
        (t.is_terminal_task = true ↔ ∀ e ∈ sf.edges, e.upstream_task ≠ t.slug) ∧
        (t.mapped = true ↔ ∃ e ∈ sf.edges, e.mapped = true ∧ e.downstream_task = t.slug)) ∧
      (sf.edges = [] → ∀ t ∈ f.tasks, t.is_root_task = true ∧ t.is_terminal_task = true) := by
  obtain ⟨env, proj, edgeRows, he, hp, hr, hfid, hflows, hgr, hpr⟩ := create_flow_ok_state h
  refine ⟨mkFlowRow sf env proj.tenant_id pid (effectiveVgid vg fv)
    (maxVersion st.flows proj.tenant_id (effectiveVgid vg fv))
    (ensureFlowGroup st proj.tenant_id (effectiveVgid vg fv)).1 desc act fid edgeRows, ?_, rfl, ?_⟩
  · rw [hflows]
    exact List.mem_append_right _ (List.mem_singleton.mpr rfl)
  · have hmain : ∀ t ∈ (mkFlowRow sf env proj.tenant_id pid (effectiveVgid vg fv)
        (maxVersion st.flows proj.tenant_id (effectiveVgid vg fv))
        (ensureFlowGroup st proj.tenant_id (effectiveVgid vg fv)).1 desc act fid edgeRows).tasks,
        (t.is_root_task = true ↔ ∀ e ∈ sf.edges, e.downstream_task ≠ t.slug) ∧
        (t.is_terminal_task = true ↔ ∀ e ∈ sf.edges, e.upstream_task ≠ t.slug) ∧
        (t.mapped = true ↔ ∃ e ∈ sf.edges, e.mapped = true ∧ e.downstream_task = t.slug) := by
      intro t ht
      simp only [mkFlowRow, List.mem_map] at ht
      obtain ⟨t1, ht1, rfl⟩ := ht
      simp only [deriveTasks, List.mem_map] at ht1
      obtain ⟨t0, ht0, rfl⟩ := ht1
      simp only [taskRowOf]
      refine ⟨?_, ?_, ?_⟩
      · exact bnot_contains_map_iff
      · exact bnot_contains_map_iff
      · exact any_edges_iff
    refine ⟨hmain, ?_⟩
    intro hE t ht
    obtain ⟨h1, h2, _⟩ := hmain t ht
    rw [hE] at h1 h2
    exact ⟨h1.mpr (by simp), h2.mpr (by simp)⟩

/-- Sample task used in witness submissions. -/
def sampleTask (i slug : String) : TaskSchema :=
  { id := i, name := none, slug := slug, type := none, auto_generated := false,
    tags := [], max_retries := 0, retry_delay := none, cache_key := none,
    trigger := none, mapped := false, is_reference_task := false,
    is_root_task := false, is_terminal_task := false }

/-- Sample store with one project and nothing else. -/
def sampleStoreP : Store :=
  { projects := [{ id := "p", tenant_id := "t" }], flowGroups := [],
    flows := [], flowRuns := [], nextId := 0 }

/-- Sample submission: two tasks, one mapped edge between them. -/
def sampleSfC4 : FlowSchema :=
  { name := some "g4", tasks := [sampleTask "t1" "a", sampleTask "t2" "b"],
    edges := [{ upstream_task := "a", downstream_task := "b", mapped := true, key := none }],
    parameters := [], environment := some [], storage := none,
    schedule := none, reference_tasks := [] }

/-- Witness for C4 at a concrete submission. -/
theorem claim_C4_witness :
    ∃ f ∈ (create_flow (fun _ => false) sampleStoreP sampleSfC4 "p" none false none "vg" 0).2.flows,
      f.id = "1" ∧
      (∀ t ∈ f.tasks,
        (t.is_root_task = true ↔ ∀ e ∈ sampleSfC4.edges, e.downstream_task ≠ t.slug) ∧
        (t.is_terminal_task = true ↔ ∀ e ∈ sampleSfC4.edges, e.upstream_task ≠ t.slug) ∧
        (t.mapped = true ↔ ∃ e ∈ sampleSfC4.edges, e.mapped = true ∧ e.downstream_task = t.slug)) ∧
      (sampleSfC4.edges = [] → ∀ t ∈ f.tasks, t.is_root_task = true ∧ t.is_terminal_task = true) :=
  claim_C4_task_flags (fun _ => false) sampleStoreP sampleSfC4 "p" none false none "vg" 0
    "1" (create_flow (fun _ => false) sampleStoreP sampleSfC4 "p" none false none "vg" 0).2 rfl
/-- Sample submission whose declared reference-task set names a slug that is
not in the task set. -/
def sampleSfC5 : FlowSchema :=
  { name := some "g5", tasks := [sampleTask "t1" "a"], edges := [],
    parameters := [], environment := some [], storage := none,
    schedule := none, reference_tasks := ["zzz"] }

/-- Counterexample for C5 as stated: a submission whose `reference_tasks`
contains the unknown slug `"zzz"` does NOT fail with a validation error —
`create_flow` succeeds and returns the new flow id. -/
theorem claim_C5_counterexample :
    (create_flow (fun _ => false) sampleStoreP sampleSfC5 "p" none false none "vg" 0).1 =
      .ok "1" := rfl

/-- C5 (amended): `create_flow` performs no validation of the declared
reference-task set — a slug not present in the task set is silently ignored
(each stored task's `is_reference_task` is simply membership of its slug in
the declared set); when the declared set is empty, exactly the terminal
tasks are stored with `is_reference_task = true`. -/
theorem claim_C5_amended_reference_flags (below : String → Bool) (st : Store)
    (sf : FlowSchema) (pid : String) (vg : Option String) (act : Bool)
    (desc : Option String) (fv : String) (now : Nat) (fid : String) (st' : Store)
    (h : create_flow below st sf pid vg act desc fv now = (.ok fid, st')) :
    ∃ f ∈ st'.flows, f.id = fid ∧
      (sf.reference_tasks ≠ [] →
        ∀ t ∈ f.tasks, (t.is_reference_task = true ↔ t.slug ∈ sf.reference_tasks)) ∧
      (sf.reference_tasks = [] →
        ∀ t ∈ f.tasks, (t.is_reference_task = true ↔ t.is_terminal_task = true)) := by
  obtain ⟨env, proj, edgeRows, he, hp, hr, hfid, hflows, hgr, hpr⟩ := create_flow_ok_state h
  refine ⟨mkFlowRow sf env proj.tenant_id pid (effectiveVgid vg fv)
    (maxVersion st.flows proj.tenant_id (effectiveVgid vg fv))
    (ensureFlowGroup st proj.tenant_id (effectiveVgid vg fv)).1 desc act fid edgeRows, ?_, rfl, ?_, ?_⟩
  · rw [hflows]
    exact List.mem_append_right _ (List.mem_singleton.mpr rfl)
  · intro hne t ht
    have hie : sf.reference_tasks.isEmpty = false := by
      cases hrt : sf.reference_tasks with
      | nil => exact absurd hrt hne
      | cons a l => rfl
    simp only [mkFlowRow, List.mem_map] at ht
    obtain ⟨t1, ht1, rfl⟩ := ht
    simp only [deriveTasks, List.mem_map, hie] at ht1
    obtain ⟨t0, ht0, rfl⟩ := ht1
    simp [taskRowOf]
  · intro hemp t ht
    simp only [mkFlowRow, List.mem_map] at ht
    obtain ⟨t1, ht1, rfl⟩ := ht
    simp only [deriveTasks, List.mem_map, hemp, List.isEmpty_nil] at ht1
    obtain ⟨t0, ht0, rfl⟩ := ht1
    simp only [taskRowOf, if_true]
    constructor
    · intro hcont
      simp only [List.contains_iff_exists_mem_beq, List.mem_map, List.mem_filter,
        beq_iff_eq] at hcont
      obtain ⟨s, ⟨t2, ⟨ht2, hp2⟩, hslug⟩, hbeq⟩ := hcont
      rw [hbeq, ← hslug]
      exact hp2
    · intro hterm
      simp only [List.contains_iff_exists_mem_beq, List.mem_map, List.mem_filter]
      exact ⟨t0.slug, ⟨t0, ⟨ht0, hterm⟩, rfl⟩, by simp⟩

/-- Witness for the amended C5 at a concrete submission. -/
theorem claim_C5_amended_witness :
    ∃ f ∈ (create_flow (fun _ => false) sampleStoreP sampleSfC5 "p" none false none "vg" 0).2.flows,
      f.id = "1" ∧
      (sampleSfC5.reference_tasks ≠ [] →
        ∀ t ∈ f.tasks, (t.is_reference_task = true ↔ t.slug ∈ sampleSfC5.reference_tasks)) ∧
      (sampleSfC5.reference_tasks = [] →
        ∀ t ∈ f.tasks, (t.is_reference_task = true ↔ t.is_terminal_task = true)) :=
  claim_C5_amended_reference_flags (fun _ => false) sampleStoreP sampleSfC5 "p" none false
    none "vg" 0 "1"
    (create_flow (fun _ => false) sampleStoreP sampleSfC5 "p" none false none "vg" 0).2 rfl

/-- C6: a submission with a schedule and at least one required parameter
fails with the `ValueError` "Can not schedule a flow that has required
parameters." when some clock's `parameter_defaults` does not cover every
required parameter's name, and the returned store is exactly the input
store: no Flow, FlowGroup, Task, Edge or FlowRun row is written. -/
theorem claim_C6_required_params_validation (below : String → Bool) (st : Store)
    (sf : FlowSchema) (pid : String) (vg : Option String) (act : Bool)
    (desc : Option String) (fv : String) (now : Nat)
    (env : List (String × String)) (proj : ProjectRow) (sched : SerSched)
    (henv : sf.environment = some env)
    (hvb : versionBad below env = false)
    (hp : st.projects.find? (fun p => p.id == pid) = some proj)
    (hsched : sf.schedule = some sched)
    (hreq : sf.parameters.filter (fun p => p.required) ≠ [])
    (hclock : ∃ c ∈ sched.clocks,
      clockCovers c (sf.parameters.filter (fun p => p.required)) = false) :
    create_flow below st sf pid vg act desc fv now =
      (.error (.valueError "Can not schedule a flow that has required parameters."), st) := by
  have hie : (sf.parameters.filter (fun p => p.required)).isEmpty = false := by
    cases hrt : sf.parameters.filter (fun p => p.required) with
    | nil => exact absurd hrt hreq
    | cons a l => rfl
  have hok : scheduleParamsOk sf = false := by
    unfold scheduleParamsOk
    simp only [hsched, hie, Bool.false_eq_true, if_false]
    obtain ⟨c, hc, hcov⟩ := hclock
    simp only [List.all_eq_false]
    exact ⟨c, hc, by simp [hcov]⟩
  unfold create_flow
  simp only [henv, hvb, Bool.false_eq_true, if_false, hp, hok, Bool.not_false, if_true]

/-- Sample submission with a schedule and a required parameter that no clock
covers. -/
def sampleSfC6 : FlowSchema :=
  { name := some "g6", tasks := [sampleTask "t1" "a"], edges := [],
    parameters := [{ name := some "x", slug := "x", required := true, default := none }],
    environment := some [], storage := none,
    schedule := some { clocks := [{ parameter_defaults := [] }], parsed := none },
    reference_tasks := [] }

/-- Witness for C6 at a concrete submission. -/
theorem claim_C6_witness :
    create_flow (fun _ => false) sampleStoreP sampleSfC6 "p" none true none "vg" 0 =
      (.error (.valueError "Can not schedule a flow that has required parameters."),
       sampleStoreP) :=
  claim_C6_required_params_validation (fun _ => false) sampleStoreP sampleSfC6 "p" none
    true none "vg" 0 [] { id := "p", tenant_id := "t" }
    { clocks := [{ parameter_defaults := [] }], parsed := none }
    rfl rfl (by decide) rfl (by decide) (by decide)

/-- C10: `FlowSchema` defaults `environment` to `None`, yet `create_flow`
unconditionally calls `environment.get`: a submission without an
`environment` mapping raises an `AttributeError` (attribute access on
`None`), not a named validation error; and when the mapping is present but
has no `__version__` key, the core-version cutoff check is bypassed
entirely — the result does not depend on the cutoff comparison at all. -/
theorem claim_C10_environment_none :
    (∀ (below : String → Bool) (st : Store) (sf : FlowSchema) (pid : String)
        (vg : Option String) (act : Bool) (desc : Option String) (fv : String) (now : Nat),
      sf.environment = none →
      create_flow below st sf pid vg act desc fv now =
        (.error (.attributeError "NoneType has no attribute get"), st)) ∧
    (∀ (b1 b2 : String → Bool) (st : Store) (sf : FlowSchema) (pid : String)
        (vg : Option String) (act : Bool) (desc : Option String) (fv : String) (now : Nat)
        (env : List (String × String)),
      sf.environment = some env →
      env.lookup "__version__" = none →
      create_flow b1 st sf pid vg act desc fv now =
        create_flow b2 st sf pid vg act desc fv now) := by
  constructor
  · intro below st sf pid vg act desc fv now h
    unfold create_flow
    simp only [h]
  · intro b1 b2 st sf pid vg act desc fv now env h1 h2
    have hvb : ∀ b : String → Bool, versionBad b env = false := by
      intro b
      unfold versionBad
      rw [h2]
    unfold create_flow
    simp only [h1, hvb]

/-- Witness for C10 at concrete submissions. -/
theorem claim_C10_witness :
    create_flow (fun _ => false) sampleStoreP
        { sampleFlowSchema with environment := none } "p" none false none "vg" 0 =
      (.error (.attributeError "NoneType has no attribute get"), sampleStoreP) ∧
    create_flow (fun _ => true) sampleStoreP sampleSfC5 "p" none false none "vg" 0 =
      create_flow (fun _ => false) sampleStoreP sampleSfC5 "p" none false none "vg" 0 :=
  ⟨claim_C10_environment_none.1 (fun _ => false) sampleStoreP
      { sampleFlowSchema with environment := none } "p" none false none "vg" 0 rfl,
   claim_C10_environment_none.2 (fun _ => true) (fun _ => false) sampleStoreP sampleSfC5
      "p" none false none "vg" 0 [] rfl rfl⟩
/-- C3: a submission's Flow row gets version `max existing version in the
(tenant, version_group_id) scope + 1` (so 1 when no prior flow exists), and
two successive submissions with the same `version_group_id` yield versions
`v` and `v + 1` attached to one single FlowGroup: created on the first
submission with the default settings, found and reused (not duplicated) on
the second. -/
theorem claim_C3_versioning (below : String → Bool) (st : Store)
    (sf1 sf2 : FlowSchema) (pid g : String) (act : Bool)
    (d1 d2 : Option String) (fv1 fv2 : String) (now1 now2 : Nat)
    (fid1 fid2 : String) (st1 st2 : Store) (proj : ProjectRow)
    (hg : g ≠ "")
    (hp : st.projects.find? (fun p => p.id == pid) = some proj)
    (hg0 : st.flowGroups.find? (fun x => x.tenant_id == proj.tenant_id && x.name == g) = none)
    (h1 : create_flow below st sf1 pid (some g) act d1 fv1 now1 = (.ok fid1, st1))
    (h2 : create_flow below st1 sf2 pid (some g) act d2 fv2 now2 = (.ok fid2, st2)) :
    ∃ f1 ∈ st1.flows, ∃ f2 ∈ st2.flows,
      f1.id = fid1 ∧ f2.id = fid2 ∧
      f1.version = maxVersion st.flows proj.tenant_id g + 1 ∧
      (st.flows.filter (fun fl => fl.version_group_id == g && fl.tenant_id == proj.tenant_id) = [] →
        f1.version = 1) ∧
      f2.version = f1.version + 1 ∧
      f1.flow_group_id = f2.flow_group_id ∧
      ∃ gr, st2.flowGroups.filter (fun x => x.tenant_id == proj.tenant_id && x.name == g) = [gr] ∧
        gr.id = f1.flow_group_id ∧ gr.settings = defaultSettings := by
  obtain ⟨env1, proj1, e1, he1, hp1, hr1, hfid1, hflows1, hgr1, hpr1⟩ := create_flow_ok_state h1
  have hq1 : proj1 = proj := Option.some.inj (hp1.symm.trans hp)
  rw [hq1] at hfid1 hflows1 hgr1
  rw [effectiveVgid_of_ne hg] at hfid1 hflows1 hgr1
  have hens1 := ensureFlowGroup_absent hg0
  rw [hens1] at hfid1 hflows1 hgr1
  simp only at hfid1 hflows1 hgr1
  -- second submission
  obtain ⟨env2, proj2, e2, he2, hp2, hr2, hfid2, hflows2, hgr2, hpr2⟩ := create_flow_ok_state h2
  rw [hpr1] at hp2
  have hq2 : proj2 = proj := Option.some.inj (hp2.symm.trans hp)
  rw [hq2] at hfid2 hflows2 hgr2
  rw [effectiveVgid_of_ne hg] at hfid2 hflows2 hgr2
  have hfind1 : st1.flowGroups.find?
      (fun x => x.tenant_id == proj.tenant_id && x.name == g) =
      some { id := toString st.nextId, tenant_id := proj.tenant_id, name := g,
             settings := defaultSettings, schedule := none } := by
    rw [hgr1, List.find?_append, hg0]
    simp
  have hens2 := ensureFlowGroup_found hfind1
  rw [hens2] at hfid2 hflows2 hgr2
  simp only at hfid2 hflows2 hgr2
  -- version arithmetic
  have hrowmatch :
      ((mkFlowRow sf1 env1 proj.tenant_id pid g
          (maxVersion st.flows proj.tenant_id g) (toString st.nextId) d1 act fid1 e1).version_group_id == g &&
       (mkFlowRow sf1 env1 proj.tenant_id pid g
          (maxVersion st.flows proj.tenant_id g) (toString st.nextId) d1 act fid1 e1).tenant_id == proj.tenant_id) = true := by
    simp [mkFlowRow]
  have hm2 : maxVersion st1.flows proj.tenant_id g =
      maxVersion st.flows proj.tenant_id g + 1 := by
    rw [hflows1, maxVersion_append hrowmatch]
    simp only [mkFlowRow]
    exact max_eq_right (Nat.le_succ _)
  refine ⟨mkFlowRow sf1 env1 proj.tenant_id pid g
      (maxVersion st.flows proj.tenant_id g) (toString st.nextId) d1 act fid1 e1, ?_,
    mkFlowRow sf2 env2 proj.tenant_id pid g
      (maxVersion st1.flows proj.tenant_id g) (toString st.nextId) d2 act fid2 e2, ?_,
    rfl, rfl, rfl, ?_, ?_, rfl, ?_⟩
  · rw [hflows1]
    exact List.mem_append_right _ (List.mem_singleton.mpr rfl)
  · rw [hflows2]
    exact List.mem_append_right _ (List.mem_singleton.mpr rfl)
  · intro hfe
    have : maxVersion st.flows proj.tenant_id g = 0 := by
      unfold maxVersion
      rw [hfe]
      rfl
    simp [mkFlowRow, this]
  · simp only [mkFlowRow]
    omega
  · have hfilter : st2.flowGroups.filter
        (fun x => x.tenant_id == proj.tenant_id && x.name == g) =
        [{ id := toString st.nextId, tenant_id := proj.tenant_id, name := g,
           settings := defaultSettings, schedule := none }] := by
      rw [hgr2, hgr1, List.filter_append]
      have hnil : st.flowGroups.filter
          (fun x => x.tenant_id == proj.tenant_id && x.name == g) = [] :=
        List.filter_eq_nil_iff.mpr (List.find?_eq_none.mp hg0)
      rw [hnil]
      simp
    exact ⟨_, hfilter, rfl, rfl⟩
/-- Witness for C3: two successive submissions of the same version group at
a concrete store get versions 1 and 2 and share the one created FlowGroup. -/
theorem claim_C3_witness :
    ∃ f1 ∈ ((create_flow (fun _ => false) sampleStoreP sampleFlowSchema "p" (some "vg")
        false none "u1" 0).2).flows,
    ∃ f2 ∈ ((create_flow (fun _ => false)
        (create_flow (fun _ => false) sampleStoreP sampleFlowSchema "p" (some "vg")
          false none "u1" 0).2
        sampleFlowSchema "p" (some "vg") false none "u2" 0).2).flows,
      f1.id = "1" ∧ f2.id = "2" ∧
      f1.version = maxVersion sampleStoreP.flows
        (ProjectRow.mk "p" "t").tenant_id "vg" + 1 ∧
      (sampleStoreP.flows.filter (fun fl => fl.version_group_id == "vg" &&
          fl.tenant_id == (ProjectRow.mk "p" "t").tenant_id) = [] →
        f1.version = 1) ∧
      f2.version = f1.version + 1 ∧
      f1.flow_group_id = f2.flow_group_id ∧
      ∃ gr, ((create_flow (fun _ => false)
          (create_flow (fun _ => false) sampleStoreP sampleFlowSchema "p" (some "vg")
            false none "u1" 0).2
          sampleFlowSchema "p" (some "vg") false none "u2" 0).2).flowGroups.filter
            (fun x => x.tenant_id == (ProjectRow.mk "p" "t").tenant_id && x.name == "vg") = [gr] ∧
        gr.id = f1.flow_group_id ∧ gr.settings = defaultSettings :=
  claim_C3_versioning (fun _ => false) sampleStoreP sampleFlowSchema sampleFlowSchema
    "p" "vg" false none none "u1" "u2" 0 0 "1" "2"
    (create_flow (fun _ => false) sampleStoreP sampleFlowSchema "p" (some "vg")
      false none "u1" 0).2
    (create_flow (fun _ => false)
      (create_flow (fun _ => false) sampleStoreP sampleFlowSchema "p" (some "vg")
        false none "u1" 0).2
      sampleFlowSchema "p" (some "vg") false none "u2" 0).2
    (ProjectRow.mk "p" "t") (by decide) rfl rfl rfl rfl
